import Mathlib

/-!
# Synthetica agent programs: energy macros, unit addressing and replication cycles

A shallow embedding of the C headers and example agent programs of the repository:

* `energy-constants.h` (namespace `EnergyConstants`)
* `synthetica_api.h` (namespace `SyntheticaApi`)
* `blueprint-replication.c` (namespace `BlueprintReplication`)
* `self-scanning-replication.c` (namespace `SelfScanningReplication`)
* `constructor-based-replication.c` (namespace `ConstructorBasedReplication`)
* `example.c` (namespace `Example`)
* `stack-protection-example.c` (namespace `StackProtection`)

Machine integers are natural numbers with an explicit reduction modulo `2 ^ w` wherever the
C type truncates.  The agent programs talk to the runtime through API calls: calls that
return a value are inputs of the model (the values the runtime answered), calls that act on
a unit are collected, in program order, in a list of commands.
-/

/-! ## Definitions -/

/-! ### energy-constants.h -/

namespace EnergyConstants

/-- The constant `E_KILO` (1024U). -/
def E_KILO : Nat := 1024

/-- The constant `E_MAX` (67108863U), the largest energy amount. -/
def E_MAX : Nat := 67108863

/-- The macro `ENERGY_HIGH(e)`, `((uint16_t)((e) >> 10))`. -/
def ENERGY_HIGH (e : Nat) : Nat := (e >>> 10) % 2 ^ 16

/-- The macro `ENERGY_LOW(e)`, `((uint16_t)((e) & 0x3FFU))`. -/
def ENERGY_LOW (e : Nat) : Nat := (e &&& 0x3FF) % 2 ^ 16

/-- The macro `MAKE_ENERGY(h, l)`, `((energy_t)(((uint32_t)(h) << 10) | ((l) & 0x3FFU)))`:
the shift is a 32-bit shift of the 32-bit conversion of `h`. -/
def MAKE_ENERGY (h l : Nat) : Nat :=
  ((((h % 2 ^ 32) <<< 10) % 2 ^ 32) ||| (l &&& 0x3FF)) % 2 ^ 32

/-- The macro `E(n)`, `((energy_t)(n))`, with `energy_t` a 32-bit unsigned integer. -/
def E (n : Nat) : Nat := n % 2 ^ 32

/-- The constant `HULL_COST_PER_CAPACITY`, `E(2)`. -/
def HULL_COST_PER_CAPACITY : Nat := E 2

/-- The constant `HULL_PRODUCTION_RATIO`, the decimal literal `0.05` read as a rational. -/
def HULL_PRODUCTION_RATIO : ℚ := 0.05

/-- The constant `ASSEMBLER_BASE_COST`, `E(800)`. -/
def ASSEMBLER_BASE_COST : Nat := E 800

/-- The constant `ASSEMBLER_POWER_COST`, `E(200)`. -/
def ASSEMBLER_POWER_COST : Nat := E 200

/-- The constant `ASSEMBLER_PRODUCTION_RATIO`, the decimal literal `0.2` read as a rational. -/
def ASSEMBLER_PRODUCTION_RATIO : ℚ := 0.2

/-- The constant `CHILD_HULL_CAPACITY` (100). -/
def CHILD_HULL_CAPACITY : Nat := 100

/-- The constant `CHILD_ASSEMBLER_POWER` (1). -/
def CHILD_ASSEMBLER_POWER : Nat := 1

/-- The constant `CHILD_HULL_TOTAL_COST`, `E(210)`. -/
def CHILD_HULL_TOTAL_COST : Nat := E 210

/-- The constant `CHILD_ASSEMBLER_TOTAL_COST`, `E(1200)`. -/
def CHILD_ASSEMBLER_TOTAL_COST : Nat := E 1200

end EnergyConstants

/-! ### synthetica_api.h -/

namespace SyntheticaApi

/-- The constant `UNIT_TYPE_NONE`. -/
def UNIT_TYPE_NONE : Nat := 0x0000

/-- The constant `UNIT_TYPE_HULL`. -/
def UNIT_TYPE_HULL : Nat := 0x0001

/-- The constant `UNIT_TYPE_ASSEMBLER`. -/
def UNIT_TYPE_ASSEMBLER : Nat := 0x0002

/-- The constant `UNIT_TYPE_COMPUTER`. -/
def UNIT_TYPE_COMPUTER : Nat := 0x0004

/-- The constant `UNIT_CODE_HULL`. -/
def UNIT_CODE_HULL : Nat := 0x00

/-- The constant `UNIT_CODE_ASSEMBLER`. -/
def UNIT_CODE_ASSEMBLER : Nat := 0x40

/-- The constant `UNIT_CODE_DISASSEMBLER`. -/
def UNIT_CODE_DISASSEMBLER : Nat := 0x80

/-- The constant `UNIT_CODE_COMPUTER`. -/
def UNIT_CODE_COMPUTER : Nat := 0xC0

/-- The constant `UNIT_INDEX_NONE`, the null unit index. -/
def UNIT_INDEX_NONE : Nat := 0x00FF

/-- The macro `ENERGY_MAKE(high, low)`, `((high << 16) | low)`, on the 32-bit energy word the
header's comment describes. -/
def ENERGY_MAKE (high low : Nat) : Nat := ((high <<< 16) ||| low) % 2 ^ 32

/-- The macro `ENERGY_HIGH(energy)`, `(energy >> 16)`. -/
def ENERGY_HIGH (energy : Nat) : Nat := energy >>> 16

/-- The macro `ENERGY_LOW(energy)`, `(energy & 0xFFFF)`. -/
def ENERGY_LOW (energy : Nat) : Nat := energy &&& 0xFFFF

/-- The four unit kinds that have a memory-mapped unit code. -/
inductive UnitKind where
  | hull
  | assembler
  | disassembler
  | computer
  deriving DecidableEq, Repr

/-- The `UNIT_CODE_*` constant of a unit kind. -/
def UNIT_CODE : UnitKind → Nat
  | .hull => UNIT_CODE_HULL
  | .assembler => UNIT_CODE_ASSEMBLER
  | .disassembler => UNIT_CODE_DISASSEMBLER
  | .computer => UNIT_CODE_COMPUTER

/-- The 4-bit type code the specification gives for a unit kind
(Hull=0x0, Assembler=0x4, Disassembler=0x8, Computer=0xC). -/
def specTypeCode : UnitKind → Nat
  | .hull => 0x0
  | .assembler => 0x4
  | .disassembler => 0x8
  | .computer => 0xC

/-- The address byte of a unit, `code | index`, as in `0xC0 | child_computer_idx` of
self-scanning-replication.c. -/
def unitAddressByte (code index : Nat) : Nat := code ||| index

end SyntheticaApi

/-! ### Computer memory and commands (synthetica_api.h) -/

namespace SyntheticaApi

/-- A Computer memory: the 16-bit value held at each address. -/
abbrev Memory := Nat → Nat

/-- The call `computer_read_my_memory(address)`: the address parameter and the result are
`uint16_t`; `m` gives the value the runtime answers for each address. -/
def computer_read_my_memory (m : Memory) (address : Nat) : Nat :=
  m (address % 2 ^ 16) % 2 ^ 16

/-- The effect of `computer_write_memory(c, address, value)` on the memory of Computer `c`:
the address and value parameters are `uint16_t`. -/
def Memory.write (child : Memory) (address value : Nat) : Memory :=
  fun a => if a = address % 2 ^ 16 then value % 2 ^ 16 else child a

/-- The memory after a sequence of writes (address, value), applied first to last. -/
def applyWrites (child : Memory) (ws : List (Nat × Nat)) : Memory :=
  ws.foldl (fun c w => c.write w.1 w.2) child

/-- The API calls that act on a unit (the `void` functions of the header), with their
arguments in declaration order. -/
inductive Command where
  | hull_set_energy_collect_state (hull_index state : Nat)
  | hull_merge (from_hull_index to_hull_index : Nat)
  | hull_detach (hull_index unit_type unit_index : Nat)
  | assembler_produce_hull (assembler_index connect_hull_index capacity : Nat)
  | assembler_produce_assembler (assembler_index connect_hull_index power : Nat)
  | assembler_produce_computer (assembler_index connect_hull_index frequency memory_size : Nat)
  | computer_write_memory (computer_index address value : Nat)
  deriving DecidableEq, Repr

/-- Whether a command is one of the three `assembler_produce_*` calls. -/
def Command.isProduce : Command → Bool
  | .assembler_produce_hull _ _ _ => true
  | .assembler_produce_assembler _ _ _ => true
  | .assembler_produce_computer _ _ _ _ => true
  | _ => false

/-- Whether a command is a `hull_detach` call. -/
def Command.isDetach : Command → Bool
  | .hull_detach _ _ _ => true
  | _ => false

/-- Whether a command is a `computer_write_memory` call. -/
def Command.isWrite : Command → Bool
  | .computer_write_memory _ _ _ => true
  | _ => false

/-- Whether a command writes to the memory of a Computer other than COMPUTER[0], the parent
Computer that runs the program. -/
def Command.isChildWrite : Command → Bool
  | .computer_write_memory computer_index _ _ => computer_index != 0
  | _ => false

/-- The values the runtime answers to the `assembler_get_last_produced_type` and
`assembler_get_last_produced_index` calls of one replication cycle, in program order.  A
program that stores an index in a `uint8_t` variable keeps its low 8 bits. -/
structure Replies where
  hull_type : Nat
  hull_index : Nat
  assembler_type : Nat
  assembler_index : Nat
  computer_type : Nat
  computer_index : Nat
  deriving DecidableEq, Repr

/-- The three writes that install the program-counter trap `JMP 0x0000` at address 0. -/
def pcTrapWrites : List (Nat × Nat) := [(0x0000, 0x60), (0x0001, 0x00), (0x0002, 0x00)]

/-- The three writes that overwrite the trap with `NOP`. -/
def trapReleaseWrites : List (Nat × Nat) := [(0x0000, 0x00), (0x0001, 0x00), (0x0002, 0x00)]

/-- The writes (address, value) as `computer_write_memory` commands to one Computer. -/
def writeCommands (computer_index : Nat) (ws : List (Nat × Nat)) : List Command :=
  ws.map (fun w => Command.computer_write_memory computer_index w.1 w.2)

end SyntheticaApi

/-! ### blueprint-replication.c -/

namespace BlueprintReplication

open SyntheticaApi

def BP_HULL_FLAG : Nat := 0x0402
def BP_ASSEMBLER_FLAG : Nat := 0x0403
def BP_COMPUTER_FLAG : Nat := 0x0404
def BP_PROGRAM_SIZE_HIGH : Nat := 0x0405
def BP_PROGRAM_SIZE_LOW : Nat := 0x0406
def BP_HULL_CAPACITY_HIGH : Nat := 0x0410
def BP_HULL_CAPACITY_LOW : Nat := 0x0411
def BP_ASSEMBLER_POWER_HIGH : Nat := 0x0418
def BP_ASSEMBLER_POWER_LOW : Nat := 0x0419
def BP_COMPUTER_FREQ_HIGH : Nat := 0x0420
def BP_COMPUTER_FREQ_LOW : Nat := 0x0421
def BP_COMPUTER_MEM_HIGH : Nat := 0x0422
def BP_COMPUTER_MEM_LOW : Nat := 0x0423
def BP_PROGRAM_DATA : Nat := 0x0428
def VAR_CHILD_HULL_IDX : Nat := 0x0300
def VAR_CHILD_ASSEMBLER_IDX : Nat := 0x0301
def VAR_CHILD_COMPUTER_IDX : Nat := 0x0302
def VAR_PROGRAM_SIZE : Nat := 0x0303

/-- The expression `(computer_read_my_memory(high) << 8) | computer_read_my_memory(low)`
stored in a 16-bit variable. -/
def readWord (m : Memory) (high low : Nat) : Nat :=
  ((computer_read_my_memory m high <<< 8) ||| computer_read_my_memory m low) % 2 ^ 16

/-- The transfer loop
`for (uint16_t i = 0; i < program_size && i < computer_mem - 3; i++)`, from the value `i`
of the counter: the writes to the child Computer it issues, or `none` when the fuel runs
out.  The bound `computer_mem - 3`, the address `i + 3` and the increment are 16-bit
unsigned. -/
def transferLoop (m : Memory) (program_size computer_mem : Nat) :
    Nat → Nat → Option (List (Nat × Nat))
  | 0, _ => none
  | fuel + 1, i =>
    if i < program_size ∧ i < (computer_mem + 2 ^ 16 - 3) % 2 ^ 16 then
      (transferLoop m program_size computer_mem fuel ((i + 1) % 2 ^ 16)).map
        (fun rest => ((i + 3) % 2 ^ 16, computer_read_my_memory m (BP_PROGRAM_DATA + i)) :: rest)
    else
      some []

/-- The program-transfer block: trap, transfer loop from `i = 0`, release.  The loop gets
`2 ^ 16` units of fuel, one for each value of the 16-bit counter. -/
def programTransfer (m : Memory) (program_size computer_mem : Nat) :
    Option (List (Nat × Nat)) :=
  (transferLoop m program_size computer_mem (2 ^ 16) 0).map
    (fun mid => pcTrapWrites ++ mid ++ trapReleaseWrites)

/-- The child-Assembler section of the cycle: the commands it issues and whether it
ended the cycle with `continue`. -/
def assemblerSection (m : Memory) (r : Replies) (child_hull_idx : Nat) :
    List Command × Bool :=
  if computer_read_my_memory m BP_ASSEMBLER_FLAG % 2 ^ 8 ≠ 0 then
    let assembler_power := readWord m BP_ASSEMBLER_POWER_HIGH BP_ASSEMBLER_POWER_LOW
    if r.assembler_type ≠ UNIT_TYPE_ASSEMBLER then
      ([.assembler_produce_assembler 0 child_hull_idx assembler_power,
        .hull_detach 0 UNIT_TYPE_HULL child_hull_idx], true)
    else
      ([.assembler_produce_assembler 0 child_hull_idx assembler_power,
        .computer_write_memory 0 VAR_CHILD_ASSEMBLER_IDX (r.assembler_index % 2 ^ 8)], false)
  else
    ([], false)

/-- The child-Computer section of the cycle: the commands it issues and whether it ended
the cycle with `continue`; `none` when the transfer loop runs out of fuel. -/
def computerSection (m : Memory) (r : Replies) (child_hull_idx : Nat) :
    Option (List Command × Bool) :=
  if computer_read_my_memory m BP_COMPUTER_FLAG % 2 ^ 8 ≠ 0 then
    let computer_freq := readWord m BP_COMPUTER_FREQ_HIGH BP_COMPUTER_FREQ_LOW
    let computer_mem := readWord m BP_COMPUTER_MEM_HIGH BP_COMPUTER_MEM_LOW
    if r.computer_type ≠ UNIT_TYPE_COMPUTER then
      some ([.assembler_produce_computer 0 child_hull_idx computer_freq computer_mem,
        .hull_detach 0 UNIT_TYPE_HULL child_hull_idx], true)
    else
      let child_computer_idx := r.computer_index % 2 ^ 8
      let program_size := readWord m BP_PROGRAM_SIZE_HIGH BP_PROGRAM_SIZE_LOW
      (programTransfer m program_size computer_mem).map (fun ws =>
        ([.assembler_produce_computer 0 child_hull_idx computer_freq computer_mem,
          .computer_write_memory 0 VAR_CHILD_COMPUTER_IDX child_computer_idx,
          .computer_write_memory 0 VAR_PROGRAM_SIZE program_size] ++
          writeCommands child_computer_idx ws, false))
  else
    some ([], false)

/-- One pass through the body of the replication loop `while (1)`, up to the `continue` that
ends it or to the energy wait at its end: the commands issued, in order. -/
def replicationCycle (m : Memory) (r : Replies) : Option (List Command) :=
  if computer_read_my_memory m BP_HULL_FLAG % 2 ^ 8 = 0 then
    some []
  else
    let hull_capacity := readWord m BP_HULL_CAPACITY_HIGH BP_HULL_CAPACITY_LOW
    if r.hull_type ≠ UNIT_TYPE_HULL then
      some [.assembler_produce_hull 0 UNIT_INDEX_NONE hull_capacity]
    else
      let child_hull_idx := r.hull_index % 2 ^ 8
      let head : List Command := [.assembler_produce_hull 0 UNIT_INDEX_NONE hull_capacity,
        .computer_write_memory 0 VAR_CHILD_HULL_IDX child_hull_idx]
      let asm := assemblerSection m r child_hull_idx
      if asm.2 then
        some (head ++ asm.1)
      else
        (computerSection m r child_hull_idx).map (fun comp =>
          if comp.2 then
            head ++ asm.1 ++ comp.1
          else
            head ++ asm.1 ++ comp.1 ++
              [.hull_detach 0 UNIT_TYPE_HULL child_hull_idx,
               .hull_set_energy_collect_state 0 1])

end BlueprintReplication

/-! ### self-scanning-replication.c -/

namespace SelfScanningReplication

open SyntheticaApi

def VAR_MY_HULL_CAPACITY : Nat := 0x0200
def VAR_MY_ASSEMBLER_POWER : Nat := 0x0201
def VAR_MY_COMPUTER_FREQUENCY : Nat := 0x0202
def VAR_MY_COMPUTER_MEMORY : Nat := 0x0203
def VAR_CONNECTED_ASSEMBLER_IDX : Nat := 0x0204
def VAR_CONNECTED_COMPUTER_IDX : Nat := 0x0205
def VAR_CHILD_HULL_IDX : Nat := 0x0206
def VAR_CHILD_ASSEMBLER_IDX : Nat := 0x0207
def VAR_CHILD_COMPUTER_IDX : Nat := 0x0208

/-- The memory transfer loop `for (uint16_t addr = 3; addr < computer_memory; addr++)`, from
the value `addr` of the counter: the writes to the child Computer it issues, or `none` when
the fuel runs out. -/
def copyLoop (m : Memory) (computer_memory : Nat) : Nat → Nat → Option (List (Nat × Nat))
  | 0, _ => none
  | fuel + 1, addr =>
    if addr < computer_memory then
      (copyLoop m computer_memory fuel ((addr + 1) % 2 ^ 16)).map
        (fun rest => (addr % 2 ^ 16, computer_read_my_memory m addr) :: rest)
    else
      some []

/-- The ten writes of the permission-change program placed at address 0x0100 of the child. -/
def permissionStubWrites (child_computer_idx : Nat) : List (Nat × Nat) :=
  [(0x0100, 0x50), (0x0101, 0x00), (0x0102, 0x00), (0x0103, 0x91),
   (0x0104, unitAddressByte 0xC0 child_computer_idx), (0x0105, 0x00), (0x0106, 0x02),
   (0x0107, 0x60), (0x0108, 0x00), (0x0109, 0x03)]

/-- All writes to the child Computer in a successful cycle: trap, copy loop from
`addr = 3`, permission stub, release.  The loop gets `2 ^ 16` units of fuel, one for each
value of the 16-bit counter. -/
def childWrites (m : Memory) (computer_memory child_computer_idx : Nat) :
    Option (List (Nat × Nat)) :=
  (copyLoop m computer_memory (2 ^ 16) 3).map
    (fun cp => pcTrapWrites ++ cp ++ permissionStubWrites child_computer_idx ++
      trapReleaseWrites)

/-- One pass through the body of the replication loop `while (1)`, up to the `continue` that
ends it or to the energy wait at its end: the commands issued, in order. -/
def replicationCycle (m : Memory) (r : Replies) : Option (List Command) :=
  let hull_capacity := computer_read_my_memory m VAR_MY_HULL_CAPACITY
  let assembler_power := computer_read_my_memory m VAR_MY_ASSEMBLER_POWER
  let computer_frequency := computer_read_my_memory m VAR_MY_COMPUTER_FREQUENCY
  let computer_memory := computer_read_my_memory m VAR_MY_COMPUTER_MEMORY
  let parent_assembler_idx := computer_read_my_memory m VAR_CONNECTED_ASSEMBLER_IDX % 2 ^ 8
  if parent_assembler_idx = UNIT_INDEX_NONE then
    some []
  else if r.hull_type ≠ UNIT_TYPE_HULL then
    some [.assembler_produce_hull parent_assembler_idx UNIT_INDEX_NONE hull_capacity]
  else
    let child_hull_idx := r.hull_index % 2 ^ 8
    let head : List Command :=
      [.assembler_produce_hull parent_assembler_idx UNIT_INDEX_NONE hull_capacity,
       .computer_write_memory 0 VAR_CHILD_HULL_IDX child_hull_idx,
       .assembler_produce_assembler parent_assembler_idx child_hull_idx assembler_power]
    if r.assembler_type ≠ UNIT_TYPE_ASSEMBLER then
      some (head ++ [.hull_detach 0 UNIT_TYPE_HULL child_hull_idx])
    else
      let mid : List Command :=
        [.computer_write_memory 0 VAR_CHILD_ASSEMBLER_IDX (r.assembler_index % 2 ^ 8),
         .assembler_produce_computer parent_assembler_idx child_hull_idx computer_frequency
           computer_memory]
      if r.computer_type ≠ UNIT_TYPE_COMPUTER then
        some (head ++ mid ++ [.hull_detach 0 UNIT_TYPE_HULL child_hull_idx])
      else
        let child_computer_idx := r.computer_index % 2 ^ 8
        (childWrites m computer_memory child_computer_idx).map (fun ws =>
          head ++ mid ++
            [.computer_write_memory 0 VAR_CHILD_COMPUTER_IDX child_computer_idx] ++
            writeCommands child_computer_idx ws ++
            [.hull_detach 0 UNIT_TYPE_HULL child_hull_idx,
             .hull_set_energy_collect_state 0 1])

end SelfScanningReplication

/-! ### constructor-based-replication.c -/

namespace ConstructorBasedReplication

open SyntheticaApi

def REPRODUCTION_HULL_CAPACITY : Nat := 200
def EXPAND_HULL_CAPACITY : Nat := 20
def CHILD_HULL_CAPACITY : Nat := 100
def CHILD_ASSEMBLER_POWER : Nat := 10
def CHILD_COMPUTER_FREQUENCY : Nat := 1
def CHILD_COMPUTER_MEMORY : Nat := 256

/-- One pass through the body of the replication loop `while (1)`, up to the `continue` that
ends it or to the energy wait at its end: the commands issued, in order. -/
def replicationCycle (r : Replies) : List Command :=
  if r.hull_type ≠ UNIT_TYPE_HULL then
    [.assembler_produce_hull 0 UNIT_INDEX_NONE CHILD_HULL_CAPACITY]
  else
    let child_hull_index := r.hull_index % 2 ^ 8
    let head : List Command :=
      [.assembler_produce_hull 0 UNIT_INDEX_NONE CHILD_HULL_CAPACITY,
       .assembler_produce_assembler 0 child_hull_index CHILD_ASSEMBLER_POWER]
    if r.assembler_type ≠ UNIT_TYPE_ASSEMBLER then
      head ++ [.hull_detach 0 UNIT_TYPE_HULL child_hull_index]
    else
      let mid : List Command :=
        [.assembler_produce_computer 0 child_hull_index CHILD_COMPUTER_FREQUENCY
          CHILD_COMPUTER_MEMORY]
      if r.computer_type ≠ UNIT_TYPE_COMPUTER then
        head ++ mid ++ [.hull_detach 0 UNIT_TYPE_HULL child_hull_index]
      else
        let child_computer_index := r.computer_index % 2 ^ 8
        head ++ mid ++ writeCommands child_computer_index pcTrapWrites ++
          [.hull_detach 0 UNIT_TYPE_HULL child_hull_index,
           .hull_set_energy_collect_state 0 1]

end ConstructorBasedReplication

/-! ### example.c -/

namespace Example

def NONE : Nat := 0
def HULL : Nat := 1
def ASSEMBLER : Nat := 2
def DISASSEMBLER : Nat := 3
def COMPUTER : Nat := 4
def UNIT_INDEX_NONE : Nat := 255
def REPRODUCTION_HULL_CAPACITY : Nat := 200
def EXPAND_HULL_CAPACITY : Nat := 20
def CHILD_HULL_CAPACITY : Nat := 100
def CHILD_ASSEMBLER_POWER : Nat := 20
def CHILD_COMPUTER_CPU_FREQUENCY : Nat := 10
def CHILD_COMPUTER_MEMORY_SIZE : Nat := 256

/-- A call of `void assemble(unsigned int assembler_index, unit unit_type,
unsigned int connect_hull_index, ...)`: the three declared parameters and the production
parameters passed from the fourth argument on. -/
structure AssembleCall where
  assembler_index : Nat
  unit_type : Nat
  connect_hull_index : Nat
  params : List Nat
  deriving DecidableEq, Repr

/-- The call `assemble(a, t, c, ps...)`: arguments are bound to the declared parameters by
position. -/
def assemble (assembler_index unit_type connect_hull_index : Nat) (params : List Nat) :
    AssembleCall :=
  ⟨assembler_index, unit_type, connect_hull_index, params⟩

/-- The three `assemble` calls of one successful pass through the replication loop (child
Hull, child Assembler, child Computer).  `child_hull_index` is the value read from
`get_last_assembled_unit_index(0)` after the Hull production; the source passes it to
`detach` only. -/
def replicationAssembleCalls (_child_hull_index : Nat) : List AssembleCall :=
  [assemble 0 HULL CHILD_HULL_CAPACITY [],
   assemble 0 ASSEMBLER CHILD_ASSEMBLER_POWER [],
   assemble 0 COMPUTER CHILD_COMPUTER_CPU_FREQUENCY [CHILD_COMPUTER_MEMORY_SIZE]]

end Example

/-! ### Replication protocol -/

namespace ReplicationProtocol

open SyntheticaApi

/-- What the replication protocol asks of one cycle that issued the Hull production, given
whether the Hull production reported a Hull (`hullOk`), whether a later production reported a
mismatching type (`mismatch`), and the index of the child Hull:
* when the Hull production failed, the cycle consists of that production alone (no further
  produce, memory write or detach);
* when a later production mismatched, the cycle ends with
  `hull_detach(0, UNIT_TYPE_HULL, child_hull_index)` and writes to no child memory;
* when the Hull was produced, `hull_detach` is called exactly once, on that Hull. -/
def AbortContract (hullOk mismatch : Prop) (child_hull_index : Nat) (t : List Command) :
    Prop :=
  (¬ hullOk → ∃ a cap, t = [Command.assembler_produce_hull a UNIT_INDEX_NONE cap]) ∧
  (hullOk → mismatch →
    t.getLast? = some (Command.hull_detach 0 UNIT_TYPE_HULL child_hull_index) ∧
    ∀ c ∈ t, c.isChildWrite = false) ∧
  (hullOk →
    t.countP Command.isDetach = 1 ∧
    ∀ c ∈ t, c.isDetach = true → c = Command.hull_detach 0 UNIT_TYPE_HULL child_hull_index)

end ReplicationProtocol

/-! ### energy-constants.h: the child Computer cost -/

namespace EnergyConstants

/-- The constant `COMPUTER_BASE_COST`, `E(500)`. -/
def COMPUTER_BASE_COST : Nat := E 500

/-- The constant `COMPUTER_FREQ_DIVISOR` (5). -/
def COMPUTER_FREQ_DIVISOR : Nat := 5

/-- The constant `COMPUTER_FREQ_MULTIPLIER`, `E(100)`. -/
def COMPUTER_FREQ_MULTIPLIER : Nat := E 100

/-- The constant `COMPUTER_MEMORY_COST`, `E(50)`. -/
def COMPUTER_MEMORY_COST : Nat := E 50

/-- The constant `COMPUTER_PRODUCTION_RATIO`, the decimal literal `0.1` read as a rational. -/
def COMPUTER_PRODUCTION_RATIO : ℚ := 0.1

/-- The constant `CHILD_COMPUTER_CPU_FREQUENCY` (1). -/
def CHILD_COMPUTER_CPU_FREQUENCY : Nat := 1

/-- The constant `CHILD_COMPUTER_MEMORY_SIZE` (256). -/
def CHILD_COMPUTER_MEMORY_SIZE : Nat := 256

/-- The constant `CHILD_COMPUTER_TOTAL_COST`, `E(13520)`. -/
def CHILD_COMPUTER_TOTAL_COST : Nat := E 13520

/-- The construction cost of the child Computer as the comment on
`CHILD_COMPUTER_TOTAL_COST` writes it, `500+20+12800`: base cost, frequency over divisor
times multiplier, memory size times memory cost, in rational arithmetic. -/
def childComputerConstructionCost : ℚ :=
  (COMPUTER_BASE_COST : ℚ) +
    ((CHILD_COMPUTER_CPU_FREQUENCY : ℚ) / (COMPUTER_FREQ_DIVISOR : ℚ)) *
      (COMPUTER_FREQ_MULTIPLIER : ℚ) +
    (CHILD_COMPUTER_MEMORY_SIZE : ℚ) * (COMPUTER_MEMORY_COST : ℚ)

/-- The total cost of the child Computer as the comment on `CHILD_COMPUTER_TOTAL_COST`
writes it, `500+20+12800 + ceil(13320×0.1)`. -/
def commentedChildComputerTotalCost : ℤ :=
  ⌈childComputerConstructionCost⌉ +
    ⌈childComputerConstructionCost * COMPUTER_PRODUCTION_RATIO⌉

end EnergyConstants

/-! ### constructor-based-replication.c: growth phase and energy wait -/

namespace ConstructorBasedReplication

open SyntheticaApi

/-- The values the runtime answers during one pass through the growth loop: the
`hull_get_capacity(0)` reading and, when the pass produces, the reported type and index of
the produced unit. -/
structure GrowthReply where
  capacity : Nat
  produced_type : Nat
  produced_index : Nat
  deriving DecidableEq, Repr

/-- The growth loop `while (1)` of `main`: the commands it issues for the replies of its
successive passes, or `none` when the loop has not left after the last supplied reply. -/
def growthPhase : List GrowthReply → Option (List Command)
  | [] => none
  | g :: rest =>
    if g.capacity ≥ REPRODUCTION_HULL_CAPACITY then
      some []
    else
      let produce : List Command :=
        [.assembler_produce_hull 0 UNIT_INDEX_NONE EXPAND_HULL_CAPACITY]
      let merge : List Command :=
        if g.produced_type = UNIT_TYPE_HULL then [.hull_merge (g.produced_index % 2 ^ 8) 0]
        else []
      (growthPhase rest).map (fun later => produce ++ merge ++ later)

/-- The growth phase followed by one pass through the replication loop. -/
def growthThenCycle (gs : List GrowthReply) (r : Replies) : Option (List Command) :=
  (growthPhase gs).map (fun growth => growth ++ replicationCycle r)

/-- The condition of the final energy wait
`while (hull_get_energy_amount(0) < ENERGY_MAKE(16, 0))` for a reading `r`: whether the
loop goes on waiting. -/
def energyWaitContinues (r : Nat) : Bool :=
  decide (r < ENERGY_MAKE 16 0)

end ConstructorBasedReplication

/-! ### self-scanning-replication.c: energy wait -/

namespace SelfScanningReplication

open SyntheticaApi

/-- The condition of the final energy wait
`while (hull_get_energy_amount(0) < ENERGY_LOW(required_energy))` for the computed
`required_energy` and a reading `r`: whether the loop goes on waiting. -/
def energyWaitContinues (required_energy r : Nat) : Bool :=
  decide (r < ENERGY_LOW required_energy)

end SelfScanningReplication

/-! ### Hull topology (runtime) -/

namespace ReplicationProtocol

open SyntheticaApi

/-- Whether a command is a `hull_merge` call. -/
def isMerge : Command → Bool
  | .hull_merge _ _ => true
  | _ => false

/-- Whether a command is one of the two topology operations, `hull_merge` or
`hull_detach`. -/
def isTopology (c : Command) : Bool :=
  isMerge c || c.isDetach

/-- Modelled from the spec: the runtime's effect of a sequence of commands on the capacity
of Hull 0, which the repository does not implement.  By section 4.2 a merge adds the donor's
capacity to the target Hull (`capacityOf` gives the capacity of each donor), and no other
operation changes a capacity: the capacity register is written by the engine only, and
detach removes the detached unit without touching the capacity of the Hull it leaves. -/
def hullZeroCapacityAfter (capacityOf : Nat → Nat) : Nat → List Command → Nat
  | capacity, [] => capacity
  | capacity, .hull_merge from_hull_index to_hull_index :: rest =>
    if to_hull_index = 0 then
      hullZeroCapacityAfter capacityOf (capacity + capacityOf from_hull_index) rest
    else
      hullZeroCapacityAfter capacityOf capacity rest
  | capacity, _ :: rest => hullZeroCapacityAfter capacityOf capacity rest

end ReplicationProtocol

/-! ### stack-protection-example.c -/

namespace StackProtection

def STACK_TOP : Nat := 0xFFFF
def STACK_BOTTOM : Nat := 0xE000
def STACK_CANARY : Nat := 0xDEAD
def MAX_RECURSION : Nat := 10

/-- The byte-addressed memory of the program: the value held at each address. -/
abbrev ByteMemory := Nat → Nat

/-- The read `*((uint8_t*)address)`: the byte at a 16-bit address. -/
def load8 (mem : ByteMemory) (address : Nat) : Nat :=
  mem (address % 2 ^ 16) % 2 ^ 8

/-- The write `*((uint8_t*)address) = value`. -/
def store8 (mem : ByteMemory) (address value : Nat) : ByteMemory :=
  fun a => if a = address % 2 ^ 16 then value % 2 ^ 8 else mem a

/-- The read `*((uint16_t*)address)`: the two bytes at `address` and `address + 1`, low byte
first. -/
def load16 (mem : ByteMemory) (address : Nat) : Nat :=
  load8 mem address + 2 ^ 8 * load8 mem (address + 1)

/-- The write `*((uint16_t*)address) = value`: the low byte at `address`, the high byte at
`address + 1`. -/
def store16 (mem : ByteMemory) (address value : Nat) : ByteMemory :=
  store8 (store8 mem address (value % 2 ^ 8)) (address + 1) (value / 2 ^ 8 % 2 ^ 8)

/-- The memory and the two global variables of the program. -/
structure State where
  mem : ByteMemory
  g_stack_pointer : Nat
  g_recursion_depth : Nat

/-- The function `int safe_push(uint16_t value)`: the returned value and the state after the
call. -/
def safe_push (s : State) (value : Nat) : Int × State :=
  if s.g_stack_pointer ≤ STACK_BOTTOM + 2 then
    (-1, s)
  else
    let sp := (s.g_stack_pointer + 2 ^ 16 - 2) % 2 ^ 16
    (0, { s with g_stack_pointer := sp, mem := store16 s.mem sp value })

/-- The function `int safe_pop(uint16_t* value)`: the returned value, the content of
`*value` after the call (`value` is its content before) and the state after the call. -/
def safe_pop (s : State) (value : Nat) : Int × Nat × State :=
  if s.g_stack_pointer ≥ STACK_TOP then
    (-1, value, s)
  else
    (0, load16 s.mem s.g_stack_pointer,
      { s with g_stack_pointer := (s.g_stack_pointer + 2) % 2 ^ 16 })

/-- The function `int protected_function(uint16_t param1, uint16_t param2)`: the returned
value and the state after the call.  `canary` is the content of the uninitialised local
variable `canary` before the last `safe_pop`. -/
def protected_function (s : State) (param1 param2 canary : Nat) : Int × State :=
  let s1 := (safe_push s STACK_CANARY).2
  let local1 := (param1 + param2) % 2 ^ 16
  let local2 := (param1 * 2) % 2 ^ 16
  let s2 := (safe_push s1 local1).2
  let s3 := (safe_push s2 local2).2
  let pop2 := safe_pop s3 local2
  let pop1 := safe_pop pop2.2.2 local1
  let popc := safe_pop pop1.2.2 canary
  if popc.2.1 ≠ STACK_CANARY then
    (-1, popc.2.2)
  else
    (0, popc.2.2)

/-- The conversion of an integer to the `int` of the program, 16 bits in two's complement:
the value in `[-2^15, 2^15)` congruent to `x` modulo `2^16`. -/
def toInt16 (x : Int) : Int :=
  (x + 2 ^ 15) % 2 ^ 16 - 2 ^ 15

/-- The function `int limited_recursive_function(uint16_t n)`: the returned value and the
state after the call.  The product `n * limited_recursive_function(n - 1)` is computed in
16 bits and stored in the `int result`, so it is reduced with `toInt16`.  The recursive
call is on `n - 1` with `n > 1`. -/
def limited_recursive_function (n : Nat) (s : State) : Int × State :=
  if s.g_recursion_depth ≥ MAX_RECURSION then
    (-1, s)
  else
    let s1 := { s with g_recursion_depth := (s.g_recursion_depth + 1) % 2 ^ 16 }
    if n ≤ 1 then
      (1, { s1 with g_recursion_depth := (s1.g_recursion_depth + 2 ^ 16 - 1) % 2 ^ 16 })
    else
      let call := limited_recursive_function (n - 1) s1
      (toInt16 ((n : Int) * call.1),
        { call.2 with g_recursion_depth := (call.2.g_recursion_depth + 2 ^ 16 - 1) % 2 ^ 16 })
termination_by n
decreasing_by omega

/-- The function `int validate_memory_access(uint16_t address, uint16_t size)`. -/
def validate_memory_access (s : State) (address size : Nat) : Int :=
  if address < 0x4000 then
    -1
  else if (address ≥ STACK_BOTTOM ∧ address ≤ STACK_TOP) ∧ address < s.g_stack_pointer then
    -1
  else if (address % 2 ^ 32 + size) % 2 ^ 32 > 0x10000 then
    -1
  else
    0

/-- The copy loop `for (uint16_t i = 0; i < size; i++)` of `safe_memcpy`, from the value `i`
of the counter: the memory after the loop, or `none` when the fuel runs out.  The counter
and the addresses `dest + i`, `src + i` are 16-bit. -/
def memcpyLoop (dest src size : Nat) : Nat → Nat → ByteMemory → Option ByteMemory
  | 0, _, _ => none
  | fuel + 1, i, mem =>
    if i < size then
      memcpyLoop dest src size fuel ((i + 1) % 2 ^ 16)
        (store8 mem ((dest + i) % 2 ^ 16) (load8 mem ((src + i) % 2 ^ 16)))
    else
      some mem

/-- The function `int safe_memcpy(uint16_t dest, uint16_t src, uint16_t size)`: the returned
value and the state after the call, or `none` when the copy loop runs out of its `2 ^ 16`
units of fuel, one for each value of the 16-bit counter.  The sums `src + size` and
`dest + size` of the overlap check are 16-bit. -/
def safe_memcpy (s : State) (dest src size : Nat) : Option (Int × State) :=
  if validate_memory_access s src size < 0 then
    some (-1, s)
  else if validate_memory_access s dest size < 0 then
    some (-1, s)
  else if (src < dest ∧ (src + size) % 2 ^ 16 > dest) ∨
      (dest < src ∧ (dest + size) % 2 ^ 16 > src) then
    some (-1, s)
  else
    (memcpyLoop dest src size (2 ^ 16) 0 s.mem).map (fun mem => (0, { s with mem := mem }))

end StackProtection

/-! ### example.c: the program copy -/

namespace Example

def ASSEMBLER_NOP0 : Nat := 0x00
def ASSEMBLER_JMP : Nat := 0x60

/-- The call `read_my_memory(memory_address)`: by the compile specification every variable
is 8 bits wide; `m` gives the value the runtime answers for each address. -/
def read_my_memory (m : Nat → Nat) (memory_address : Nat) : Nat :=
  m (memory_address % 2 ^ 8) % 2 ^ 8

/-- The copy loop
`for (unsigned int memory_address = 2; memory_address <= memory_size; memory_address++)`,
from the value `memory_address` of the 8-bit counter: the writes (address, value) to
COMPUTER[1] it issues, or `none` when the fuel runs out before the loop is left. -/
def copyLoop (m : Nat → Nat) (memory_size : Nat) : Nat → Nat → Option (List (Nat × Nat))
  | 0, _ => none
  | fuel + 1, memory_address =>
    if memory_address ≤ memory_size then
      (copyLoop m memory_size fuel ((memory_address + 1) % 2 ^ 8)).map
        (fun rest => (memory_address, read_my_memory m memory_address) :: rest)
    else
      some []

/-- The writes to the child Computer (lines 142 to 148): the trap `JMP` at address 0, the
copy loop from `memory_address = 2` for the value `memory_size` that
`search_template(0xCC)` returned, and the release `NOP0` at address 0; `none` when the loop
is not left within the fuel, so that the release is not reached. -/
def childWrites (m : Nat → Nat) (memory_size fuel : Nat) : Option (List (Nat × Nat)) :=
  (copyLoop m memory_size fuel 2).map
    (fun cp => [(0, ASSEMBLER_JMP)] ++ cp ++ [(0, ASSEMBLER_NOP0)])

end Example

/-! ## Theorems -/

namespace EnergyConstants

/-- C1: for every energy amount `e ≤ E_MAX` the macros of energy-constants.h give
`ENERGY_HIGH(e) = e / 1024` (the 16-bit cast loses nothing), `ENERGY_LOW(e) = e % 1024` and
`MAKE_ENERGY(ENERGY_HIGH(e), ENERGY_LOW(e)) = e`; conversely for `h ≤ 65535` and `l < 1024`,
`MAKE_ENERGY(h, l) ≤ E_MAX` and it splits back to `(h, l)`. -/
theorem energy_split_roundtrip (e h l : Nat) (he : e ≤ E_MAX) (hh : h ≤ 65535)
    (hl : l < 1024) :
    (ENERGY_HIGH e = e / 1024 ∧ e >>> 10 < 2 ^ 16 ∧ ENERGY_LOW e = e % 1024 ∧
      MAKE_ENERGY (ENERGY_HIGH e) (ENERGY_LOW e) = e) ∧
    (MAKE_ENERGY h l ≤ E_MAX ∧ ENERGY_HIGH (MAKE_ENERGY h l) = h ∧
      ENERGY_LOW (MAKE_ENERGY h l) = l) := by
  unfold E_MAX at *
  have hmask : ∀ x : Nat, x &&& 0x3FF = x % 1024 := fun x =>
    Nat.and_pow_two_sub_one_eq_mod x 10
  have hshr : ∀ x : Nat, x >>> 10 = x / 1024 := fun x => Nat.shiftRight_eq_div_pow x 10
  have hmake : ∀ a b : Nat, a ≤ 65535 → b < 1024 → MAKE_ENERGY a b = a * 1024 + b := by
    intro a b ha hb
    unfold MAKE_ENERGY
    rw [hmask, Nat.shiftLeft_eq]
    have hor : 2 ^ 10 * a + b % 1024 = 2 ^ 10 * a ||| b % 1024 :=
      Nat.mul_add_lt_is_or (by omega) a
    have e1 : (a % 2 ^ 32 * 2 ^ 10) % 2 ^ 32 = 2 ^ 10 * a := by omega
    rw [e1, ← hor]
    omega
  have h1 : ENERGY_HIGH e = e / 1024 := by
    unfold ENERGY_HIGH
    rw [hshr]
    omega
  have h2 : ENERGY_LOW e = e % 1024 := by
    unfold ENERGY_LOW
    rw [hmask]
    omega
  refine ⟨⟨h1, ?_, h2, ?_⟩, ?_⟩
  · rw [hshr]
    omega
  · rw [h1, h2, hmake _ _ (by omega) (by omega)]
    omega
  · rw [hmake h l hh hl]
    refine ⟨by omega, ?_, ?_⟩
    · unfold ENERGY_HIGH
      rw [hshr]
      omega
    · unfold ENERGY_LOW
      rw [hmask]
      omega

/-- Witness of `energy_split_roundtrip` at the amount 5000 and the pair (3, 7). -/
theorem energy_split_roundtrip_witness :
    (5000 ≤ E_MAX ∧ 3 ≤ 65535 ∧ 7 < 1024) ∧
    ((ENERGY_HIGH 5000 = 5000 / 1024 ∧ 5000 >>> 10 < 2 ^ 16 ∧ ENERGY_LOW 5000 = 5000 % 1024 ∧
      MAKE_ENERGY (ENERGY_HIGH 5000) (ENERGY_LOW 5000) = 5000) ∧
    (MAKE_ENERGY 3 7 ≤ E_MAX ∧ ENERGY_HIGH (MAKE_ENERGY 3 7) = 3 ∧
      ENERGY_LOW (MAKE_ENERGY 3 7) = 7)) :=
  ⟨by decide, energy_split_roundtrip 5000 3 7 (by decide) (by decide) (by decide)⟩

/-- C10: the precomputed thresholds equal construction cost times (1 + production ratio) in
exact rational arithmetic: 210 for the child Hull (capacity 100, cost 2, ratio 1/20) and
1200 for the child Assembler (base 800, power cost 200, power 1, ratio 1/5). -/
theorem child_total_costs :
    HULL_PRODUCTION_RATIO = 1 / 20 ∧ ASSEMBLER_PRODUCTION_RATIO = 1 / 5 ∧
    (CHILD_HULL_TOTAL_COST : ℚ) = 210 ∧
    (CHILD_HULL_TOTAL_COST : ℚ) =
      (CHILD_HULL_CAPACITY : ℚ) * (HULL_COST_PER_CAPACITY : ℚ) * (1 + HULL_PRODUCTION_RATIO) ∧
    (CHILD_ASSEMBLER_TOTAL_COST : ℚ) = 1200 ∧
    (CHILD_ASSEMBLER_TOTAL_COST : ℚ) =
      ((ASSEMBLER_BASE_COST : ℚ) + (ASSEMBLER_POWER_COST : ℚ) * (CHILD_ASSEMBLER_POWER : ℚ)) *
        (1 + ASSEMBLER_PRODUCTION_RATIO) := by
  simp only [ HULL_PRODUCTION_RATIO, ASSEMBLER_PRODUCTION_RATIO, CHILD_HULL_TOTAL_COST,
    CHILD_HULL_CAPACITY, HULL_COST_PER_CAPACITY, CHILD_ASSEMBLER_TOTAL_COST,
    ASSEMBLER_BASE_COST, ASSEMBLER_POWER_COST, CHILD_ASSEMBLER_POWER, E]
  norm_num

end EnergyConstants

namespace SyntheticaApi

/-- C9: for every unit kind and every index `i < 16` the address byte `b = code | i` has
high nibble equal to the specification's 4-bit type code and low nibble `i`, is never
`UNIT_INDEX_NONE`, and determines both the kind and the index. -/
theorem unit_address_byte_nibbles (k k2 : UnitKind) (i i2 : Nat) (hi : i < 16)
    (hi2 : i2 < 16) :
    unitAddressByte (UNIT_CODE k) i >>> 4 = specTypeCode k ∧
    unitAddressByte (UNIT_CODE k) i &&& 0xF = i ∧
    unitAddressByte (UNIT_CODE k) i ≠ UNIT_INDEX_NONE ∧
    (unitAddressByte (UNIT_CODE k) i = unitAddressByte (UNIT_CODE k2) i2 →
      k = k2 ∧ i = i2) := by
  have key : ∀ (c : UnitKind) (j : Nat), j < 16 →
      unitAddressByte (UNIT_CODE c) j = 16 * specTypeCode c + j := by
    intro c j hj
    have hor : 2 ^ 4 * specTypeCode c + j = 2 ^ 4 * specTypeCode c ||| j :=
      Nat.mul_add_lt_is_or (by omega) _
    unfold unitAddressByte
    cases c <;>
      simp only [UNIT_CODE, UNIT_CODE_HULL, UNIT_CODE_ASSEMBLER, UNIT_CODE_DISASSEMBLER,
        UNIT_CODE_COMPUTER, specTypeCode, Nat.reducePow, Nat.reduceMul] at hor ⊢ <;> omega
  have hcode : ∀ c : UnitKind, specTypeCode c < 16 := by
    intro c
    cases c <;> simp [specTypeCode]
  have hk := hcode k
  rw [key k i hi, key k2 i2 hi2, Nat.shiftRight_eq_div_pow,
    show (0xF : Nat) = 2 ^ 4 - 1 from rfl, Nat.and_pow_two_sub_one_eq_mod]
  refine ⟨by omega, by omega, ?_, ?_⟩
  · unfold UNIT_INDEX_NONE
    cases k <;> simp only [specTypeCode] <;> omega
  · intro hb
    have h2 := hcode k2
    have hc : specTypeCode k = specTypeCode k2 := by omega
    refine ⟨?_, by omega⟩
    cases k <;> cases k2 <;> simp_all [specTypeCode]

/-- Witness of `unit_address_byte_nibbles` at COMPUTER[5] and ASSEMBLER[3]. -/
theorem unit_address_byte_nibbles_witness :
    (5 < 16 ∧ 3 < 16) ∧
    (unitAddressByte (UNIT_CODE .computer) 5 >>> 4 = specTypeCode .computer ∧
    unitAddressByte (UNIT_CODE .computer) 5 &&& 0xF = 5 ∧
    unitAddressByte (UNIT_CODE .computer) 5 ≠ UNIT_INDEX_NONE ∧
    (unitAddressByte (UNIT_CODE .computer) 5 = unitAddressByte (UNIT_CODE .assembler) 3 →
      UnitKind.computer = UnitKind.assembler ∧ 5 = 3)) :=
  ⟨by decide, unit_address_byte_nibbles .computer .assembler 5 3 (by decide) (by decide)⟩
end SyntheticaApi

/-! ### Memory writes -/

namespace SyntheticaApi

theorem applyWrites_append (c : Memory) (ws vs : List (Nat × Nat)) :
    applyWrites c (ws ++ vs) = applyWrites (applyWrites c ws) vs := by
  simp [applyWrites, List.foldl_append]

theorem applyWrites_nil (c : Memory) : applyWrites c [] = c := rfl

theorem applyWrites_cons (c : Memory) (w : Nat × Nat) (ws : List (Nat × Nat)) :
    applyWrites c (w :: ws) = applyWrites (c.write w.1 w.2) ws := rfl

/-- A cell that no write of the sequence addresses keeps its value. -/
theorem applyWrites_untouched (ws : List (Nat × Nat)) (c : Memory) (a : Nat)
    (h : ∀ w ∈ ws, w.1 % 2 ^ 16 ≠ a) : applyWrites c ws a = c a := by
  induction ws generalizing c with
  | nil => rfl
  | cons w ws ih =>
    rw [applyWrites_cons, ih _ (fun v hv => h v (List.mem_cons_of_mem _ hv))]
    have hw := h w (List.mem_cons_self _ _)
    unfold Memory.write
    rw [if_neg (fun e => hw e.symm)]

/-- The memory after writing `(f j, g j)` for `j = s, s + 1, ..., s + k - 1`, at distinct
addresses: the cell `f j` holds `g j`. -/
theorem applyWrites_range (c : Memory) (f g : Nat → Nat) (s k : Nat)
    (hinj : ∀ j j2, s ≤ j → j < j2 → j2 < s + k → f j % 2 ^ 16 ≠ f j2 % 2 ^ 16)
    (j : Nat) (hs : s ≤ j) (hj : j < s + k) :
    applyWrites c ((List.range' s k).map (fun x => (f x, g x))) (f j % 2 ^ 16) =
      g j % 2 ^ 16 := by
  induction k with
  | zero => omega
  | succ k ih =>
    rw [List.range'_1_concat, List.map_append, applyWrites_append]
    by_cases hjk : j = s + k
    · subst hjk
      simp [applyWrites, Memory.write]
    · have hne : f (s + k) % 2 ^ 16 ≠ f j % 2 ^ 16 :=
        fun e => hinj j (s + k) hs (by omega) (by omega) e.symm
      simp only [List.map_cons, List.map_nil, applyWrites_cons, applyWrites_nil]
      unfold Memory.write
      rw [if_neg (fun e => hne e.symm)]
      exact ih (fun a b ha hab hb => hinj a b ha hab (by omega)) (by omega)

end SyntheticaApi

namespace BlueprintReplication

open SyntheticaApi

/-- The transfer loop terminates and issues one write per counter value from `i` up to
`min(program_size, (computer_mem - 3) mod 2^16)`. -/
theorem transferLoop_eq (m : Memory) (program_size computer_mem : Nat)
    (hp : program_size < 2 ^ 16) (fuel i : Nat)
    (hi : i ≤ min program_size ((computer_mem + 2 ^ 16 - 3) % 2 ^ 16))
    (hf : min program_size ((computer_mem + 2 ^ 16 - 3) % 2 ^ 16) - i < fuel) :
    transferLoop m program_size computer_mem fuel i =
      some ((List.range' i (min program_size ((computer_mem + 2 ^ 16 - 3) % 2 ^ 16) - i)).map
        (fun j => ((j + 3) % 2 ^ 16, computer_read_my_memory m (BP_PROGRAM_DATA + j)))) := by
  induction fuel generalizing i with
  | zero => omega
  | succ fuel ih =>
    unfold transferLoop
    by_cases hc : i < program_size ∧ i < (computer_mem + 2 ^ 16 - 3) % 2 ^ 16
    · rw [if_pos hc]
      have hwrap : (i + 1) % 2 ^ 16 = i + 1 := by omega
      rw [hwrap, ih (i + 1) (by omega) (by omega)]
      have hlen : min program_size ((computer_mem + 2 ^ 16 - 3) % 2 ^ 16) - i =
          (min program_size ((computer_mem + 2 ^ 16 - 3) % 2 ^ 16) - (i + 1)) + 1 := by omega
      rw [hlen, List.range'_succ]
      simp
    · rw [if_neg hc]
      have hz : min program_size ((computer_mem + 2 ^ 16 - 3) % 2 ^ 16) - i = 0 := by omega
      rw [hz]
      simp

/-- With a child memory of at least three cells the transfer block is the trap, one write
`(j + 3, m[0x0428 + j])` per `j < min(program_size, computer_mem - 3)`, and the release. -/
theorem programTransfer_eq (m : Memory) (program_size computer_mem : Nat)
    (hp : program_size < 2 ^ 16) (hc : computer_mem < 2 ^ 16) (h3 : 3 ≤ computer_mem) :
    programTransfer m program_size computer_mem =
      some (pcTrapWrites ++
        (List.range' 0 (min program_size (computer_mem - 3))).map
          (fun j => (j + 3, computer_read_my_memory m (BP_PROGRAM_DATA + j))) ++
        trapReleaseWrites) := by
  have hb : (computer_mem + 2 ^ 16 - 3) % 2 ^ 16 = computer_mem - 3 := by omega
  unfold programTransfer
  rw [transferLoop_eq m program_size computer_mem hp (2 ^ 16) 0 (by omega) (by omega), hb]
  simp only [Option.map_some', Nat.sub_zero]
  refine congrArg some (congrArg (fun l => pcTrapWrites ++ l ++ trapReleaseWrites) ?_)
  apply List.map_congr_left
  intro j hj
  rw [List.mem_range'_1] at hj
  have : (j + 3) % 2 ^ 16 = j + 3 := by omega
  rw [this]

end BlueprintReplication

namespace SelfScanningReplication

open SyntheticaApi

/-- The copy loop terminates and issues one write `(a, m[a])` per address from `addr` up to
`computer_memory`. -/
theorem copyLoop_eq (m : Memory) (computer_memory : Nat) (hc : computer_memory < 2 ^ 16)
    (fuel addr : Nat) (hf : computer_memory - addr < fuel) :
    copyLoop m computer_memory fuel addr =
      some ((List.range' addr (computer_memory - addr)).map
        (fun a => (a, computer_read_my_memory m a))) := by
  induction fuel generalizing addr with
  | zero => omega
  | succ fuel ih =>
    unfold copyLoop
    by_cases hlt : addr < computer_memory
    · rw [if_pos hlt]
      have hwrap : (addr + 1) % 2 ^ 16 = addr + 1 := by omega
      have hmod : addr % 2 ^ 16 = addr := by omega
      rw [hwrap, hmod, ih (addr + 1) (by omega)]
      have hlen : computer_memory - addr = (computer_memory - (addr + 1)) + 1 := by omega
      rw [hlen, List.range'_succ]
      simp
    · rw [if_neg hlt]
      have hz : computer_memory - addr = 0 := by omega
      rw [hz]
      simp

/-- The writes to the child of a successful cycle: trap, one write per address
`3 ≤ a < computer_memory`, permission stub, release. -/
theorem childWrites_eq (m : Memory) (computer_memory child_computer_idx : Nat)
    (hc : computer_memory < 2 ^ 16) :
    childWrites m computer_memory child_computer_idx =
      some (pcTrapWrites ++
        ((List.range' 3 (computer_memory - 3)).map
            (fun a => (a, computer_read_my_memory m a)) ++
          permissionStubWrites child_computer_idx) ++
        trapReleaseWrites) := by
  unfold childWrites
  rw [copyLoop_eq m computer_memory hc (2 ^ 16) 3 (by omega)]
  simp [List.append_assoc]

end SelfScanningReplication

/-! ### Program transfer (blueprint-replication.c) -/

namespace BlueprintReplication

open SyntheticaApi

/-- C3: for every parent memory, program size and child memory size `computer_mem ≥ 3`, the
program-transfer block finishes, and then `child[i + 3] = m[0x0428 + i]` for every
`i < min(program_size, computer_mem - 3)`, `child[0]`, `child[1]`, `child[2]` are 0x00, and
no other child cell has been written. -/
theorem program_transfer_result (m child0 : Memory) (program_size computer_mem : Nat)
    (hp : program_size < 2 ^ 16) (hc : computer_mem < 2 ^ 16) (h3 : 3 ≤ computer_mem) :
    ∃ ws, programTransfer m program_size computer_mem = some ws ∧
      (∀ i, i < min program_size (computer_mem - 3) →
        applyWrites child0 ws (i + 3) = computer_read_my_memory m (0x0428 + i)) ∧
      applyWrites child0 ws 0 = 0x00 ∧ applyWrites child0 ws 1 = 0x00 ∧
      applyWrites child0 ws 2 = 0x00 ∧
      (∀ w ∈ ws, w.1 < 3 ∨ ∃ i, i < min program_size (computer_mem - 3) ∧ w.1 = i + 3) ∧
      (∀ a, min program_size (computer_mem - 3) + 3 ≤ a →
        applyWrites child0 ws a = child0 a) := by
  refine ⟨_, programTransfer_eq m program_size computer_mem hp hc h3, ?_, ?_, ?_, ?_, ?_, ?_⟩
  · intro i hi
    rw [applyWrites_append,
      applyWrites_untouched trapReleaseWrites _ _ (by simp [trapReleaseWrites]),
      applyWrites_append]
    have h := applyWrites_range (applyWrites child0 pcTrapWrites) (fun j => j + 3)
      (fun j => computer_read_my_memory m (BP_PROGRAM_DATA + j)) 0
      (min program_size (computer_mem - 3)) (by intro j j2 _ hlt hj2; simp only; omega)
      i (by omega) (by omega)
    have hmod : (i + 3) % 2 ^ 16 = i + 3 := by omega
    have hval : computer_read_my_memory m (BP_PROGRAM_DATA + i) % 2 ^ 16 =
        computer_read_my_memory m (BP_PROGRAM_DATA + i) := by
      unfold computer_read_my_memory
      omega
    simp only [hmod, hval] at h
    exact h
  · rw [applyWrites_append]
    simp [applyWrites, trapReleaseWrites, Memory.write]
  · rw [applyWrites_append]
    simp [applyWrites, trapReleaseWrites, Memory.write]
  · rw [applyWrites_append]
    simp [applyWrites, trapReleaseWrites, Memory.write]
  · intro w hw
    simp only [List.mem_append, List.mem_map, List.mem_range'_1] at hw
    rcases hw with (hw | ⟨j, hj, rfl⟩) | hw
    · left
      simp only [pcTrapWrites, List.mem_cons, List.mem_singleton, List.not_mem_nil,
        or_false] at hw
      rcases hw with rfl | rfl | rfl <;> simp
    · right
      exact ⟨j, by omega, rfl⟩
    · left
      simp only [trapReleaseWrites, List.mem_cons, List.mem_singleton, List.not_mem_nil,
        or_false] at hw
      rcases hw with rfl | rfl | rfl <;> simp
  · intro a ha
    apply applyWrites_untouched
    intro w hw
    simp only [List.mem_append, List.mem_map, List.mem_range'_1] at hw
    rcases hw with (hw | ⟨j, hj, rfl⟩) | hw
    · simp only [pcTrapWrites, List.mem_cons, List.mem_singleton, List.not_mem_nil,
        or_false] at hw
      rcases hw with rfl | rfl | rfl <;> simp <;> omega
    · simp only
      omega
    · simp only [trapReleaseWrites, List.mem_cons, List.mem_singleton, List.not_mem_nil,
        or_false] at hw
      rcases hw with rfl | rfl | rfl <;> simp <;> omega

/-- Witness of `program_transfer_result`: a 5-byte program into a child memory of 6 cells. -/
theorem program_transfer_result_witness :
    ((5 : Nat) < 2 ^ 16 ∧ (6 : Nat) < 2 ^ 16 ∧ 3 ≤ 6) ∧
    ∃ ws, programTransfer (fun a => a) 5 6 = some ws ∧
      (∀ i, i < min 5 (6 - 3) →
        applyWrites (fun _ => 7) ws (i + 3) = computer_read_my_memory (fun a => a) (0x0428 + i)) ∧
      applyWrites (fun _ => 7) ws 0 = 0x00 ∧ applyWrites (fun _ => 7) ws 1 = 0x00 ∧
      applyWrites (fun _ => 7) ws 2 = 0x00 ∧
      (∀ w ∈ ws, w.1 < 3 ∨ ∃ i, i < min 5 (6 - 3) ∧ w.1 = i + 3) ∧
      (∀ a, min 5 (6 - 3) + 3 ≤ a → applyWrites (fun _ => 7) ws a = (fun _ => 7) a) :=
  ⟨by decide, program_transfer_result (fun a => a) (fun _ => 7) 5 6 (by decide) (by decide)
    (by decide)⟩

/-- C4 (evaluation at the failing input): with `program_size = 1` and a child memory of
`computer_mem = 0` cells the 16-bit bound `computer_mem - 3` is 65533, so the transfer loop
runs once and writes child address 3, which is not below `computer_mem`; one byte is
transferred where `min(program_size, max(computer_mem - 3, 0))` is 0. -/
theorem transfer_bound_wraps :
    ((0 : Nat) + 2 ^ 16 - 3) % 2 ^ 16 = 65533 ∧
    transferLoop (fun _ => 0) 1 0 (2 ^ 16) 0 = some [(3, 0)] ∧
    programTransfer (fun _ => 0) 1 0 =
      some [(0, 0x60), (1, 0), (2, 0), (3, 0), (0, 0), (1, 0), (2, 0)] ∧
    ¬ (3 < 0) ∧ min 1 (max (0 - 3) 0) = 0 := by
  decide

end BlueprintReplication

/-! ### Memory transfer (self-scanning-replication.c) -/

namespace SelfScanningReplication

open SyntheticaApi

/-- For every parent memory and memory size the writes to the child finish, and afterwards
every copied cell outside the permission stub equals the parent cell, while the cell 0x0100
holds the stub opcode 0x50 whatever the parent holds there. -/
theorem childWrites_result (m child0 : Memory) (computer_memory child_computer_idx : Nat)
    (hc : computer_memory < 2 ^ 16) :
    ∃ ws, childWrites m computer_memory child_computer_idx = some ws ∧
      applyWrites child0 ws 0x0100 = 0x50 ∧
      (∀ a, 3 ≤ a → a < computer_memory → (a < 0x0100 ∨ 0x0109 < a) →
        applyWrites child0 ws a = computer_read_my_memory m a) := by
  refine ⟨_, childWrites_eq m computer_memory child_computer_idx hc, ?_, ?_⟩
  · rw [applyWrites_append, applyWrites_append, applyWrites_append]
    simp [applyWrites, trapReleaseWrites, permissionStubWrites, Memory.write]
  · intro a h3 ha hout
    rw [applyWrites_append,
      applyWrites_untouched trapReleaseWrites _ _
        (by simp [trapReleaseWrites]; omega),
      applyWrites_append, applyWrites_append,
      applyWrites_untouched (permissionStubWrites child_computer_idx) _ _
        (by simp [permissionStubWrites]; omega)]
    have h := applyWrites_range (applyWrites child0 pcTrapWrites) (fun j => j)
      (fun j => computer_read_my_memory m j) 3 (computer_memory - 3)
      (by intro j j2 _ hlt hj2; simp only; omega) a h3 (by omega)
    have hmod : a % 2 ^ 16 = a := by omega
    have hval : computer_read_my_memory m a % 2 ^ 16 = computer_read_my_memory m a := by
      unfold computer_read_my_memory
      omega
    simp only [hmod, hval] at h
    exact h

/-- C5 (evaluation at the failing input): with an all-zero parent memory and
`computer_memory = 512`, the writes to the child finish and leave `child[0x0100] = 0x50`
although the parent cell `m[0x0100]` is 0 and `3 ≤ 0x0100 < 512`. -/
theorem stub_overwrites_copy :
    ∃ ws, childWrites (fun _ => 0) 512 1 = some ws ∧
      applyWrites (fun _ => 0) ws 0x0100 = 0x50 ∧
      computer_read_my_memory (fun _ => 0) 0x0100 = 0 ∧ 3 ≤ 0x0100 ∧ 0x0100 < 512 := by
  obtain ⟨ws, h1, h2, _⟩ := childWrites_result (fun _ => 0) (fun _ => 0) 512 1 (by decide)
  exact ⟨ws, h1, h2, by decide, by decide, by decide⟩

end SelfScanningReplication

/-! ### The program-counter trap and the abort paths -/

namespace SyntheticaApi

/-- After the trap is installed, writes to addresses from 3 on leave it in place. -/
theorem trap_held_after (child0 : Memory) (pre : List (Nat × Nat))
    (h : ∀ w ∈ pre, 3 ≤ w.1 ∧ w.1 < 2 ^ 16) :
    applyWrites child0 (pcTrapWrites ++ pre) 0 = 0x60 ∧
    applyWrites child0 (pcTrapWrites ++ pre) 1 = 0x00 ∧
    applyWrites child0 (pcTrapWrites ++ pre) 2 = 0x00 := by
  have hne : ∀ a, a < 3 → ∀ w ∈ pre, w.1 % 2 ^ 16 ≠ a := by
    intro a ha w hw
    have := h w hw
    omega
  rw [applyWrites_append, applyWrites_untouched pre _ 0 (hne 0 (by omega)),
    applyWrites_untouched pre _ 1 (hne 1 (by omega)),
    applyWrites_untouched pre _ 2 (hne 2 (by omega))]
  simp [applyWrites, pcTrapWrites, Memory.write]

theorem countP_isDetach_writeCommands (idx : Nat) (ws : List (Nat × Nat)) :
    (writeCommands idx ws).countP Command.isDetach = 0 := by
  simp [writeCommands, List.countP_eq_zero, Command.isDetach]

theorem not_isDetach_of_mem_writeCommands (idx : Nat) (ws : List (Nat × Nat)) (c : Command)
    (h : c ∈ writeCommands idx ws) : c.isDetach = false := by
  simp only [writeCommands, List.mem_map] at h
  obtain ⟨w, _, rfl⟩ := h
  rfl

end SyntheticaApi

namespace BlueprintReplication

open SyntheticaApi

theorem readWord_lt (m : Memory) (high low : Nat) : readWord m high low < 2 ^ 16 := by
  unfold readWord
  omega

/-- The transfer block finishes for every program size and child memory size. -/
theorem programTransfer_finishes (m : Memory) (program_size computer_mem : Nat)
    (hp : program_size < 2 ^ 16) :
    ∃ ws, programTransfer m program_size computer_mem = some ws := by
  unfold programTransfer
  rw [transferLoop_eq m program_size computer_mem hp (2 ^ 16) 0 (by omega) (by omega)]
  exact ⟨_, rfl⟩

end BlueprintReplication

namespace ReplicationProtocol

open SyntheticaApi

/-- C6: the program-counter trap is held for the whole transfer.  In
self-scanning-replication.c (every memory size) and in blueprint-replication.c (every
program size, `computer_mem ≥ 3`) the writes to the child are the three trap writes, then
writes that all target an address `≥ 3`, then the three NOP writes; after the trap writes
and after every further write before the NOP writes, `child[0..2] = (0x60, 0x00, 0x00)`. -/
theorem pc_trap_held (m child0 : Memory)
    (computer_memory child_computer_idx program_size computer_mem : Nat)
    (hm : computer_memory < 2 ^ 16) (hp : program_size < 2 ^ 16)
    (hc : computer_mem < 2 ^ 16) (h3 : 3 ≤ computer_mem) :
    (∃ mid, SelfScanningReplication.childWrites m computer_memory child_computer_idx =
        some (pcTrapWrites ++ mid ++ trapReleaseWrites) ∧
      (∀ w ∈ mid, 3 ≤ w.1 ∧ w.1 < 2 ^ 16) ∧
      ∀ pre, pre <+: mid →
        applyWrites child0 (pcTrapWrites ++ pre) 0 = 0x60 ∧
        applyWrites child0 (pcTrapWrites ++ pre) 1 = 0x00 ∧
        applyWrites child0 (pcTrapWrites ++ pre) 2 = 0x00) ∧
    (∃ mid, BlueprintReplication.programTransfer m program_size computer_mem =
        some (pcTrapWrites ++ mid ++ trapReleaseWrites) ∧
      (∀ w ∈ mid, 3 ≤ w.1 ∧ w.1 < 2 ^ 16) ∧
      ∀ pre, pre <+: mid →
        applyWrites child0 (pcTrapWrites ++ pre) 0 = 0x60 ∧
        applyWrites child0 (pcTrapWrites ++ pre) 1 = 0x00 ∧
        applyWrites child0 (pcTrapWrites ++ pre) 2 = 0x00) := by
  constructor
  · refine ⟨_, SelfScanningReplication.childWrites_eq m computer_memory child_computer_idx hm,
      ?_, ?_⟩
    · intro w hw
      simp only [List.mem_append, List.mem_map, List.mem_range'_1] at hw
      rcases hw with ⟨a, ha, rfl⟩ | hw
      · simp only
        omega
      · simp only [SelfScanningReplication.permissionStubWrites, List.mem_cons,
          List.mem_singleton, List.not_mem_nil, or_false] at hw
        rcases hw with rfl | rfl | rfl | rfl | rfl | rfl | rfl | rfl | rfl | rfl <;> simp
    · intro pre hpre
      apply trap_held_after
      intro w hw
      have hw2 := hpre.subset hw
      simp only [List.mem_append, List.mem_map, List.mem_range'_1] at hw2
      rcases hw2 with ⟨a, ha, rfl⟩ | hw2
      · simp only
        omega
      · simp only [SelfScanningReplication.permissionStubWrites, List.mem_cons,
          List.mem_singleton, List.not_mem_nil, or_false] at hw2
        rcases hw2 with rfl | rfl | rfl | rfl | rfl | rfl | rfl | rfl | rfl | rfl <;> simp
  · refine ⟨_, BlueprintReplication.programTransfer_eq m program_size computer_mem hp hc h3,
      ?_, ?_⟩
    · intro w hw
      simp only [List.mem_map, List.mem_range'_1] at hw
      obtain ⟨j, hj, rfl⟩ := hw
      simp only
      omega
    · intro pre hpre
      apply trap_held_after
      intro w hw
      have hw2 := hpre.subset hw
      simp only [List.mem_map, List.mem_range'_1] at hw2
      obtain ⟨j, hj, rfl⟩ := hw2
      simp only
      omega

/-- Witness of `pc_trap_held`: a parent memory of 300 cells and a 5-byte blueprint program
into a child memory of 6 cells. -/
theorem pc_trap_held_witness :
    ((300 : Nat) < 2 ^ 16 ∧ (5 : Nat) < 2 ^ 16 ∧ (6 : Nat) < 2 ^ 16 ∧ 3 ≤ 6) ∧
    ((∃ mid, SelfScanningReplication.childWrites (fun a => a) 300 1 =
        some (pcTrapWrites ++ mid ++ trapReleaseWrites) ∧
      (∀ w ∈ mid, 3 ≤ w.1 ∧ w.1 < 2 ^ 16) ∧
      ∀ pre, pre <+: mid →
        applyWrites (fun _ => 7) (pcTrapWrites ++ pre) 0 = 0x60 ∧
        applyWrites (fun _ => 7) (pcTrapWrites ++ pre) 1 = 0x00 ∧
        applyWrites (fun _ => 7) (pcTrapWrites ++ pre) 2 = 0x00) ∧
    (∃ mid, BlueprintReplication.programTransfer (fun a => a) 5 6 =
        some (pcTrapWrites ++ mid ++ trapReleaseWrites) ∧
      (∀ w ∈ mid, 3 ≤ w.1 ∧ w.1 < 2 ^ 16) ∧
      ∀ pre, pre <+: mid →
        applyWrites (fun _ => 7) (pcTrapWrites ++ pre) 0 = 0x60 ∧
        applyWrites (fun _ => 7) (pcTrapWrites ++ pre) 1 = 0x00 ∧
        applyWrites (fun _ => 7) (pcTrapWrites ++ pre) 2 = 0x00)) :=
  ⟨by decide, pc_trap_held (fun a => a) (fun _ => 7) 300 1 5 6 (by decide) (by decide)
    (by decide) (by decide)⟩

end ReplicationProtocol

namespace ConstructorBasedReplication

open SyntheticaApi ReplicationProtocol

/-- The abort paths of constructor-based-replication.c. -/
theorem cycle_contract (r : Replies) :
    AbortContract (r.hull_type = UNIT_TYPE_HULL)
      (r.assembler_type ≠ UNIT_TYPE_ASSEMBLER ∨ r.computer_type ≠ UNIT_TYPE_COMPUTER)
      (r.hull_index % 2 ^ 8) (replicationCycle r) := by
  unfold AbortContract replicationCycle
  refine ⟨?_, ?_, ?_⟩
  · intro h
    rw [if_pos h]
    exact ⟨_, _, rfl⟩
  · intro h hmis
    rw [if_neg (not_not.mpr h)]
    by_cases ha : r.assembler_type ≠ UNIT_TYPE_ASSEMBLER
    · rw [if_pos ha]
      simp [Command.isChildWrite]
    · rw [if_neg ha]
      have hcomp : r.computer_type ≠ UNIT_TYPE_COMPUTER := by
        rcases hmis with h1 | h1
        · exact absurd h1 ha
        · exact h1
      rw [if_pos hcomp]
      simp [Command.isChildWrite]
  · intro h
    rw [if_neg (not_not.mpr h)]
    by_cases ha : r.assembler_type ≠ UNIT_TYPE_ASSEMBLER
    · rw [if_pos ha]
      simp [Command.isDetach]
    · rw [if_neg ha]
      by_cases hcomp : r.computer_type ≠ UNIT_TYPE_COMPUTER
      · rw [if_pos hcomp]
        simp [Command.isDetach]
      · rw [if_neg hcomp]
        simp [Command.isDetach, writeCommands, pcTrapWrites]

end ConstructorBasedReplication

namespace SelfScanningReplication

open SyntheticaApi ReplicationProtocol

/-- The abort paths of self-scanning-replication.c, for a cycle that found the parent
Assembler. -/
theorem scan_cycle_contract (m : Memory) (r : Replies)
    (hidx : computer_read_my_memory m VAR_CONNECTED_ASSEMBLER_IDX % 2 ^ 8 ≠ UNIT_INDEX_NONE) :
    ∃ t, replicationCycle m r = some t ∧
      AbortContract (r.hull_type = UNIT_TYPE_HULL)
        (r.assembler_type ≠ UNIT_TYPE_ASSEMBLER ∨ r.computer_type ≠ UNIT_TYPE_COMPUTER)
        (r.hull_index % 2 ^ 8) t := by
  have hmem : computer_read_my_memory m VAR_MY_COMPUTER_MEMORY < 2 ^ 16 := by
    unfold computer_read_my_memory
    omega
  unfold replicationCycle
  simp only [if_neg hidx]
  by_cases hh : r.hull_type ≠ UNIT_TYPE_HULL
  · rw [if_pos hh]
    refine ⟨_, rfl, fun _ => ⟨_, _, rfl⟩, fun h => absurd h hh, fun h => absurd h hh⟩
  · rw [if_neg hh]
    by_cases ha : r.assembler_type ≠ UNIT_TYPE_ASSEMBLER
    · rw [if_pos ha]
      refine ⟨_, rfl, fun h => absurd h hh, fun _ _ => ?_, fun _ => ?_⟩
      · simp [Command.isChildWrite]
      · simp [Command.isDetach]
    · rw [if_neg ha]
      by_cases hcomp : r.computer_type ≠ UNIT_TYPE_COMPUTER
      · rw [if_pos hcomp]
        refine ⟨_, rfl, fun h => absurd h hh, fun _ _ => ?_, fun _ => ?_⟩
        · simp [Command.isChildWrite]
        · simp [Command.isDetach]
      · rw [if_neg hcomp, childWrites_eq m _ _ hmem]
        refine ⟨_, rfl, fun h => absurd h hh, fun _ hmis => ?_, fun _ => ?_⟩
        · rcases hmis with h1 | h1
          · exact absurd h1 ha
          · exact absurd h1 hcomp
        · constructor
          · simp [Command.isDetach, countP_isDetach_writeCommands]
          · intro c hc hd
            simp only [List.mem_append, List.mem_cons, List.mem_singleton, List.not_mem_nil,
              or_false] at hc
            rcases hc with (((hc | hc) | hc) | hc) | hc
            · rcases hc with rfl | rfl | rfl <;> simp [Command.isDetach] at hd
            · rcases hc with rfl | rfl <;> simp [Command.isDetach] at hd
            · subst hc
              simp [Command.isDetach] at hd
            · rw [not_isDetach_of_mem_writeCommands _ _ c hc] at hd
              exact absurd hd (by simp)
            · rcases hc with rfl | rfl
              · rfl
              · simp [Command.isDetach] at hd

end SelfScanningReplication

namespace BlueprintReplication

open SyntheticaApi ReplicationProtocol

/-- The abort paths of blueprint-replication.c, for a cycle whose blueprint has a Hull. -/
theorem blueprint_cycle_contract (m : Memory) (r : Replies)
    (hhull : computer_read_my_memory m BP_HULL_FLAG % 2 ^ 8 ≠ 0) :
    ∃ t, replicationCycle m r = some t ∧
      AbortContract (r.hull_type = UNIT_TYPE_HULL)
        ((computer_read_my_memory m BP_ASSEMBLER_FLAG % 2 ^ 8 ≠ 0 ∧
            r.assembler_type ≠ UNIT_TYPE_ASSEMBLER) ∨
          (computer_read_my_memory m BP_COMPUTER_FLAG % 2 ^ 8 ≠ 0 ∧
            r.computer_type ≠ UNIT_TYPE_COMPUTER))
        (r.hull_index % 2 ^ 8) t := by
  obtain ⟨ws, hws⟩ := programTransfer_finishes m
    (readWord m BP_PROGRAM_SIZE_HIGH BP_PROGRAM_SIZE_LOW)
    (readWord m BP_COMPUTER_MEM_HIGH BP_COMPUTER_MEM_LOW) (readWord_lt m _ _)
  unfold replicationCycle
  rw [if_neg hhull]
  by_cases hh : r.hull_type ≠ UNIT_TYPE_HULL
  · rw [if_pos hh]
    refine ⟨_, rfl, fun _ => ⟨_, _, rfl⟩, fun h => absurd h hh, fun h => absurd h hh⟩
  · rw [if_neg hh]
    unfold assemblerSection computerSection
    by_cases hfa : computer_read_my_memory m BP_ASSEMBLER_FLAG % 2 ^ 8 ≠ 0 <;>
    by_cases ha : r.assembler_type ≠ UNIT_TYPE_ASSEMBLER <;>
    by_cases hfc : computer_read_my_memory m BP_COMPUTER_FLAG % 2 ^ 8 ≠ 0 <;>
    by_cases hcomp : r.computer_type ≠ UNIT_TYPE_COMPUTER <;>
    simp only [hfa, ha, hfc, hcomp, hws, if_true, if_false, not_true_eq_false,
      not_false_eq_true, Option.map_some', Bool.false_eq_true, and_true, and_false,
      or_false, false_or, or_true, true_or, and_self, ne_eq] <;>
    refine ⟨_, rfl, fun h => absurd h hh, ?_, fun _ => ?_⟩ <;>
    simp [Command.isChildWrite, Command.isDetach, countP_isDetach_writeCommands] <;>
    intro a h hd <;>
    rcases h with h | rfl | rfl <;>
    first
      | rfl
      | (have h2 := not_isDetach_of_mem_writeCommands _ _ a h
         unfold Command.isDetach at h2
         rw [h2] at hd
         exact absurd hd (by simp))
      | exact absurd hd (by simp)

end BlueprintReplication

namespace ReplicationProtocol

open SyntheticaApi

/-- C7: in each of constructor-based-replication.c, self-scanning-replication.c and
blueprint-replication.c, for every combination of reported production types, a cycle that
issued the Hull production finishes and keeps the abort contract: a failed Hull production
is followed by no further produce, memory write or detach; a mismatching Assembler or
Computer production ends the cycle with `hull_detach(0, UNIT_TYPE_HULL, child_hull_index)`
and no write to a child memory; and every cycle that produced a child Hull calls
`hull_detach` exactly once, on that Hull. -/
theorem abort_detaches_child_hull (mScan mBlueprint : Memory) (r : Replies)
    (hidx : computer_read_my_memory mScan SelfScanningReplication.VAR_CONNECTED_ASSEMBLER_IDX
      % 2 ^ 8 ≠ UNIT_INDEX_NONE)
    (hhull : computer_read_my_memory mBlueprint BlueprintReplication.BP_HULL_FLAG % 2 ^ 8 ≠ 0) :
    AbortContract (r.hull_type = UNIT_TYPE_HULL)
      (r.assembler_type ≠ UNIT_TYPE_ASSEMBLER ∨ r.computer_type ≠ UNIT_TYPE_COMPUTER)
      (r.hull_index % 2 ^ 8) (ConstructorBasedReplication.replicationCycle r) ∧
    (∃ t, SelfScanningReplication.replicationCycle mScan r = some t ∧
      AbortContract (r.hull_type = UNIT_TYPE_HULL)
        (r.assembler_type ≠ UNIT_TYPE_ASSEMBLER ∨ r.computer_type ≠ UNIT_TYPE_COMPUTER)
        (r.hull_index % 2 ^ 8) t) ∧
    (∃ t, BlueprintReplication.replicationCycle mBlueprint r = some t ∧
      AbortContract (r.hull_type = UNIT_TYPE_HULL)
        ((computer_read_my_memory mBlueprint BlueprintReplication.BP_ASSEMBLER_FLAG % 2 ^ 8 ≠ 0 ∧
            r.assembler_type ≠ UNIT_TYPE_ASSEMBLER) ∨
          (computer_read_my_memory mBlueprint BlueprintReplication.BP_COMPUTER_FLAG % 2 ^ 8 ≠ 0 ∧
            r.computer_type ≠ UNIT_TYPE_COMPUTER))
        (r.hull_index % 2 ^ 8) t) :=
  ⟨ConstructorBasedReplication.cycle_contract r,
    SelfScanningReplication.scan_cycle_contract mScan r hidx,
    BlueprintReplication.blueprint_cycle_contract mBlueprint r hhull⟩

/-- Witness of `abort_detaches_child_hull`: all-zero scanned variables, a blueprint with all
three unit flags set, and a cycle whose Hull and Assembler are produced (indices 7 and 8) and
whose Computer production reports `UNIT_TYPE_NONE`. -/
theorem abort_detaches_child_hull_witness :
    (computer_read_my_memory (fun _ => 0) SelfScanningReplication.VAR_CONNECTED_ASSEMBLER_IDX
        % 2 ^ 8 ≠ UNIT_INDEX_NONE ∧
      computer_read_my_memory (fun _ => 1) BlueprintReplication.BP_HULL_FLAG % 2 ^ 8 ≠ 0) ∧
    (AbortContract ((⟨1, 7, 2, 8, 0, 255⟩ : Replies).hull_type = UNIT_TYPE_HULL)
      ((⟨1, 7, 2, 8, 0, 255⟩ : Replies).assembler_type ≠ UNIT_TYPE_ASSEMBLER ∨
        (⟨1, 7, 2, 8, 0, 255⟩ : Replies).computer_type ≠ UNIT_TYPE_COMPUTER)
      ((⟨1, 7, 2, 8, 0, 255⟩ : Replies).hull_index % 2 ^ 8)
      (ConstructorBasedReplication.replicationCycle ⟨1, 7, 2, 8, 0, 255⟩) ∧
    (∃ t, SelfScanningReplication.replicationCycle (fun _ => 0) ⟨1, 7, 2, 8, 0, 255⟩ = some t ∧
      AbortContract ((⟨1, 7, 2, 8, 0, 255⟩ : Replies).hull_type = UNIT_TYPE_HULL)
        ((⟨1, 7, 2, 8, 0, 255⟩ : Replies).assembler_type ≠ UNIT_TYPE_ASSEMBLER ∨
          (⟨1, 7, 2, 8, 0, 255⟩ : Replies).computer_type ≠ UNIT_TYPE_COMPUTER)
        ((⟨1, 7, 2, 8, 0, 255⟩ : Replies).hull_index % 2 ^ 8) t) ∧
    (∃ t, BlueprintReplication.replicationCycle (fun _ => 1) ⟨1, 7, 2, 8, 0, 255⟩ = some t ∧
      AbortContract ((⟨1, 7, 2, 8, 0, 255⟩ : Replies).hull_type = UNIT_TYPE_HULL)
        ((computer_read_my_memory (fun _ => 1) BlueprintReplication.BP_ASSEMBLER_FLAG
              % 2 ^ 8 ≠ 0 ∧
            (⟨1, 7, 2, 8, 0, 255⟩ : Replies).assembler_type ≠ UNIT_TYPE_ASSEMBLER) ∨
          (computer_read_my_memory (fun _ => 1) BlueprintReplication.BP_COMPUTER_FLAG
              % 2 ^ 8 ≠ 0 ∧
            (⟨1, 7, 2, 8, 0, 255⟩ : Replies).computer_type ≠ UNIT_TYPE_COMPUTER))
        ((⟨1, 7, 2, 8, 0, 255⟩ : Replies).hull_index % 2 ^ 8) t)) :=
  ⟨by decide, abort_detaches_child_hull (fun _ => 0) (fun _ => 1) ⟨1, 7, 2, 8, 0, 255⟩
    (by decide) (by decide)⟩

/-- The three programs on the replies of the witness: each cycle stops after the failed
Computer production with the detach of child Hull 7. -/
theorem abort_cycle_traces :
    ConstructorBasedReplication.replicationCycle ⟨1, 7, 2, 8, 0, 255⟩ =
      [.assembler_produce_hull 0 255 100, .assembler_produce_assembler 0 7 10,
       .assembler_produce_computer 0 7 1 256, .hull_detach 0 1 7] ∧
    SelfScanningReplication.replicationCycle (fun _ => 0) ⟨1, 7, 2, 8, 0, 255⟩ =
      some [.assembler_produce_hull 0 255 0, .computer_write_memory 0 0x0206 7,
       .assembler_produce_assembler 0 7 0, .computer_write_memory 0 0x0207 8,
       .assembler_produce_computer 0 7 0 0, .hull_detach 0 1 7] ∧
    BlueprintReplication.replicationCycle (fun _ => 1) ⟨1, 7, 2, 8, 0, 255⟩ =
      some [.assembler_produce_hull 0 255 257, .computer_write_memory 0 0x0300 7,
       .assembler_produce_assembler 0 7 257, .computer_write_memory 0 0x0301 8,
       .assembler_produce_computer 0 7 257 257, .hull_detach 0 1 7] := by
  decide

end ReplicationProtocol

/-! ### The assemble calls of example.c -/

namespace Example

/-- C8 (evaluation of the code): with `child_hull_index = 1`, the three `assemble` calls of
the replication loop bind, under the documented signature, `connect_hull_index` to 100 (the
Hull capacity), 20 (the Assembler power) and 10 (the Computer frequency): the Hull call does
not pass `UNIT_INDEX_NONE` and carries no production parameter, and neither the Assembler
nor the Computer call passes `child_hull_index`. -/
theorem example_assemble_arguments :
    (replicationAssembleCalls 1).map AssembleCall.unit_type = [HULL, ASSEMBLER, COMPUTER] ∧
    (replicationAssembleCalls 1).map AssembleCall.connect_hull_index = [100, 20, 10] ∧
    (replicationAssembleCalls 1).map AssembleCall.params = [[], [], [256]] ∧
    100 ≠ UNIT_INDEX_NONE ∧ 20 ≠ 1 ∧ 10 ≠ 1 := by
  decide

end Example

/-! ### Growth phase, energy waits and the child Computer cost -/

namespace ReplicationProtocol

open SyntheticaApi

theorem hullZeroCapacityAfter_of_no_merge (capacityOf : Nat → Nat) (capacity : Nat)
    (cs : List Command) (h : ∀ c ∈ cs, isMerge c = false) :
    hullZeroCapacityAfter capacityOf capacity cs = capacity := by
  induction cs with
  | nil => rfl
  | cons c cs ih =>
    have hc := h c (List.mem_cons_self _ _)
    have hrest := ih (fun d hd => h d (List.mem_cons_of_mem _ hd))
    cases c <;> simp_all [hullZeroCapacityAfter, isMerge]

end ReplicationProtocol

namespace ConstructorBasedReplication

open SyntheticaApi ReplicationProtocol

theorem replicationCycle_no_merge (r : Replies) :
    ∀ c ∈ replicationCycle r, isMerge c = false := by
  intro c hc
  unfold replicationCycle at hc
  split_ifs at hc <;>
    simp only [List.mem_append, List.mem_cons, List.mem_singleton, List.not_mem_nil,
      or_false, writeCommands, pcTrapWrites, List.map_cons, List.map_nil] at hc <;>
    (try casesm* _ ∨ _) <;> subst_vars <;> rfl

/-- C11: whenever the first `hull_get_capacity(0)` reading is at least
`REPRODUCTION_HULL_CAPACITY` (200), the growth phase ends at once with no produce and no
`hull_merge`; for every outcome of the following replication cycle the program calls no
`hull_merge` and first produces the child Hull with capacity 100 and
`connect_hull_index = UNIT_INDEX_NONE`; in a successful cycle the only topology operation
is the `hull_detach` of the child Hull, and the capacity of Hull 0 is what it was. -/
theorem growth_skipped_capacity_kept (g : GrowthReply) (gs : List GrowthReply) (r : Replies)
    (capacityOf : Nat → Nat) (capacity : Nat)
    (h : REPRODUCTION_HULL_CAPACITY ≤ g.capacity) :
    growthPhase (g :: gs) = some [] ∧
    growthThenCycle (g :: gs) r = some (replicationCycle r) ∧
    (∀ c ∈ replicationCycle r, isMerge c = false) ∧
    (replicationCycle r).head? =
      some (Command.assembler_produce_hull 0 UNIT_INDEX_NONE 100) ∧
    (r.hull_type = UNIT_TYPE_HULL → r.assembler_type = UNIT_TYPE_ASSEMBLER →
      r.computer_type = UNIT_TYPE_COMPUTER →
      (replicationCycle r).filter isTopology =
        [Command.hull_detach 0 UNIT_TYPE_HULL (r.hull_index % 2 ^ 8)]) ∧
    hullZeroCapacityAfter capacityOf capacity (replicationCycle r) = capacity := by
  have hg : growthPhase (g :: gs) = some [] := by
    unfold growthPhase
    rw [if_pos h]
  refine ⟨hg, ?_, replicationCycle_no_merge r, ?_, ?_,
    hullZeroCapacityAfter_of_no_merge _ _ _ (replicationCycle_no_merge r)⟩
  · unfold growthThenCycle
    rw [hg]
    rfl
  · unfold replicationCycle
    split_ifs <;> rfl
  · intro h1 h2 h3
    unfold replicationCycle
    rw [if_neg (not_not.mpr h1), if_neg (not_not.mpr h2), if_neg (not_not.mpr h3)]
    rfl

/-- Witness of `growth_skipped_capacity_kept`: a first capacity reading of exactly 200 and a
successful cycle (child Hull 7, Assembler 8, Computer 9), Hull 0 of capacity 200. -/
theorem growth_skipped_capacity_kept_witness :
    REPRODUCTION_HULL_CAPACITY ≤ (⟨200, 0, 255⟩ : GrowthReply).capacity ∧
    (growthPhase [⟨200, 0, 255⟩] = some [] ∧
    growthThenCycle [⟨200, 0, 255⟩] ⟨1, 7, 2, 8, 4, 9⟩ =
      some (replicationCycle ⟨1, 7, 2, 8, 4, 9⟩) ∧
    (∀ c ∈ replicationCycle ⟨1, 7, 2, 8, 4, 9⟩, isMerge c = false) ∧
    (replicationCycle ⟨1, 7, 2, 8, 4, 9⟩).head? =
      some (Command.assembler_produce_hull 0 UNIT_INDEX_NONE 100) ∧
    ((⟨1, 7, 2, 8, 4, 9⟩ : Replies).hull_type = UNIT_TYPE_HULL →
      (⟨1, 7, 2, 8, 4, 9⟩ : Replies).assembler_type = UNIT_TYPE_ASSEMBLER →
      (⟨1, 7, 2, 8, 4, 9⟩ : Replies).computer_type = UNIT_TYPE_COMPUTER →
      (replicationCycle ⟨1, 7, 2, 8, 4, 9⟩).filter isTopology =
        [Command.hull_detach 0 UNIT_TYPE_HULL ((⟨1, 7, 2, 8, 4, 9⟩ : Replies).hull_index % 2 ^ 8)]) ∧
    hullZeroCapacityAfter (fun _ => 100) 200 (replicationCycle ⟨1, 7, 2, 8, 4, 9⟩) = 200) :=
  ⟨by decide, growth_skipped_capacity_kept ⟨200, 0, 255⟩ [] ⟨1, 7, 2, 8, 4, 9⟩ (fun _ => 100)
    200 (by decide)⟩

/-- The energy wait goes on for every 16-bit reading. -/
theorem energyWaitContinues_of_lt (r : Nat) (h : r < 2 ^ 16) : energyWaitContinues r = true := by
  have hm : ENERGY_MAKE 16 0 = 1048576 := by decide
  unfold energyWaitContinues
  rw [hm]
  exact decide_eq_true (by omega)

/-- C12 (evaluation at the failing readings): `ENERGY_MAKE(16, 0)` is 1048576, not
`16 * 1024 = 16384`, so at the readings 16384 and 65535 (the largest 16-bit value) the
condition `r < ENERGY_MAKE(16, 0)` of the energy wait still holds and the loop goes on. -/
theorem energy_wait_threshold_unreachable :
    ENERGY_MAKE 16 0 = 1048576 ∧ 16 * 1024 = 16384 ∧
    energyWaitContinues 16384 = true ∧ energyWaitContinues 65535 = true := by
  decide

end ConstructorBasedReplication

namespace SelfScanningReplication

open SyntheticaApi

/-- C13 (evaluation at the failing input): for `required_energy = 109564` the wait compares
the reading with `ENERGY_LOW(109564) = 44028`, so the reading 44028 ends the loop although it
is below the required energy. -/
theorem energy_wait_low_word_only :
    ENERGY_LOW 109564 = 44028 ∧ energyWaitContinues 109564 44028 = false ∧
    ¬ (109564 ≤ 44028) := by
  decide

end SelfScanningReplication

namespace EnergyConstants

/-- C14 (evaluation of the constants): the construction cost of the child Computer is
`500 + 20 + 12800 = 13320`, and with `ceil(13320 × 1/10) = 1332` the total the comment
describes is 14652, while `CHILD_COMPUTER_TOTAL_COST` is 13520. -/
theorem child_computer_total_cost_mismatch :
    CHILD_COMPUTER_TOTAL_COST = 13520 ∧ COMPUTER_PRODUCTION_RATIO = 1 / 10 ∧
    childComputerConstructionCost = 13320 ∧
    ⌈childComputerConstructionCost * COMPUTER_PRODUCTION_RATIO⌉ = 1332 ∧
    commentedChildComputerTotalCost = 14652 ∧
    (CHILD_COMPUTER_TOTAL_COST : ℤ) ≠ commentedChildComputerTotalCost := by
  have hc : childComputerConstructionCost = ((13320 : ℤ) : ℚ) := by
    simp only [childComputerConstructionCost, COMPUTER_BASE_COST, CHILD_COMPUTER_CPU_FREQUENCY,
      COMPUTER_FREQ_DIVISOR, COMPUTER_FREQ_MULTIPLIER, CHILD_COMPUTER_MEMORY_SIZE,
      COMPUTER_MEMORY_COST, E]
    norm_num
  have hr : childComputerConstructionCost * COMPUTER_PRODUCTION_RATIO = ((1332 : ℤ) : ℚ) := by
    rw [hc]
    simp only [ COMPUTER_PRODUCTION_RATIO]
    norm_num
  have ht : commentedChildComputerTotalCost = 14652 := by
    unfold commentedChildComputerTotalCost
    rw [hr, hc, Int.ceil_intCast, Int.ceil_intCast]
    rfl
  refine ⟨by decide, ?_, ?_, ?_, ht, ?_⟩
  · simp only [ COMPUTER_PRODUCTION_RATIO]
    norm_num
  · rw [hc]
    norm_num
  · rw [hr, Int.ceil_intCast]
  · rw [ht]
    decide

end EnergyConstants

/-! ### Stack protection (stack-protection-example.c) -/

namespace StackProtection

theorem load8_lt (mem : ByteMemory) (a : Nat) : load8 mem a < 2 ^ 8 := by
  unfold load8
  omega

/-- A 16-bit value written at `a` is read back from `a`. -/
theorem load16_store16 (mem : ByteMemory) (a v : Nat) (ha : a + 1 < 2 ^ 16)
    (hv : v < 2 ^ 16) : load16 (store16 mem a v) a = v := by
  have h1 : a % 2 ^ 16 = a := by omega
  have h2 : (a + 1) % 2 ^ 16 = a + 1 := by omega
  have h3 : a ≠ a + 1 := by omega
  simp only [load16, store16, load8, store8, h1, h2, if_true, if_neg h3]
  omega

/-- A 16-bit write at `a` changes the bytes at `a` and `a + 1` only. -/
theorem store16_other (mem : ByteMemory) (a v x : Nat) (ha : a + 1 < 2 ^ 16)
    (hx : x ≠ a ∧ x ≠ a + 1) : store16 mem a v x = mem x := by
  have h1 : a % 2 ^ 16 = a := by omega
  have h2 : (a + 1) % 2 ^ 16 = a + 1 := by omega
  simp only [store16, store8, h1, h2, if_neg hx.1, if_neg hx.2]

/-- C17: `safe_pop` undoes `safe_push`.  With `STACK_BOTTOM + 2 < g_stack_pointer ≤
STACK_TOP`, `safe_push(v)` returns 0 and lowers the stack pointer by 2, writing only the two
bytes at the new stack pointer (none below `STACK_BOTTOM`), and the following `safe_pop`
returns 0, yields `v` and restores the stack pointer; with `g_stack_pointer ≤
STACK_BOTTOM + 2`, `safe_push` returns -1 and changes nothing. -/
theorem push_pop_roundtrip (s s2 : State) (v x : Nat) (hv : v < 2 ^ 16)
    (h1 : STACK_BOTTOM + 2 < s.g_stack_pointer) (h2 : s.g_stack_pointer ≤ STACK_TOP)
    (h3 : s2.g_stack_pointer ≤ STACK_BOTTOM + 2) :
    (safe_push s v).1 = 0 ∧
    (safe_push s v).2.g_stack_pointer = s.g_stack_pointer - 2 ∧
    (safe_push s v).2.g_recursion_depth = s.g_recursion_depth ∧
    (∀ a, a ≠ s.g_stack_pointer - 2 ∧ a ≠ s.g_stack_pointer - 1 →
      (safe_push s v).2.mem a = s.mem a) ∧
    (∀ a, a < STACK_BOTTOM → (safe_push s v).2.mem a = s.mem a) ∧
    (safe_pop (safe_push s v).2 x).1 = 0 ∧
    (safe_pop (safe_push s v).2 x).2.1 = v ∧
    (safe_pop (safe_push s v).2 x).2.2.g_stack_pointer = s.g_stack_pointer ∧
    (safe_pop (safe_push s v).2 x).2.2.mem = (safe_push s v).2.mem ∧
    safe_push s2 v = (-1, s2) := by
  unfold STACK_BOTTOM at h1 h3
  unfold STACK_TOP at h2
  have hsp : (s.g_stack_pointer + 2 ^ 16 - 2) % 2 ^ 16 = s.g_stack_pointer - 2 := by omega
  have hpush : safe_push s v =
      (0, { s with g_stack_pointer := s.g_stack_pointer - 2,
                   mem := store16 s.mem (s.g_stack_pointer - 2) v }) := by
    unfold safe_push STACK_BOTTOM
    rw [if_neg (by omega)]
    simp only [hsp]
  have hother : ∀ a, a ≠ s.g_stack_pointer - 2 ∧ a ≠ s.g_stack_pointer - 1 →
      store16 s.mem (s.g_stack_pointer - 2) v a = s.mem a := by
    intro a ha
    apply store16_other _ _ _ _ (by omega)
    constructor <;> omega
  have hpop : safe_pop (safe_push s v).2 x =
      (0, v, { s with mem := store16 s.mem (s.g_stack_pointer - 2) v }) := by
    rw [hpush]
    unfold safe_pop STACK_TOP
    simp only
    rw [if_neg (by omega), load16_store16 _ _ _ (by omega) hv]
    have hback : (s.g_stack_pointer - 2 + 2) % 2 ^ 16 = s.g_stack_pointer := by omega
    rw [hback]
  refine ⟨?_, ?_, ?_, ?_, ?_, ?_, ?_, ?_, ?_, ?_⟩
  · rw [hpush]
  · rw [hpush]
  · rw [hpush]
  · rw [hpush]
    exact hother
  · rw [hpush]
    intro a ha
    unfold STACK_BOTTOM at ha
    exact hother a (by omega)
  · rw [hpop]
  · rw [hpop]
  · rw [hpop]
  · rw [hpop, hpush]
  · unfold safe_push STACK_BOTTOM
    rw [if_pos h3]

/-- Witness of `push_pop_roundtrip`: pushing 0xDEAD on the empty stack, and a push refused
at `g_stack_pointer = STACK_BOTTOM + 2`. -/
theorem push_pop_roundtrip_witness :
    ((0xDEAD : Nat) < 2 ^ 16 ∧
      STACK_BOTTOM + 2 < (⟨fun _ => 0, 0xFFFF, 0⟩ : State).g_stack_pointer ∧
      (⟨fun _ => 0, 0xFFFF, 0⟩ : State).g_stack_pointer ≤ STACK_TOP ∧
      (⟨fun _ => 0, 0xE002, 0⟩ : State).g_stack_pointer ≤ STACK_BOTTOM + 2) ∧
    ((safe_push ⟨fun _ => 0, 0xFFFF, 0⟩ 0xDEAD).1 = 0 ∧
    (safe_push ⟨fun _ => 0, 0xFFFF, 0⟩ 0xDEAD).2.g_stack_pointer =
      (⟨fun _ => 0, 0xFFFF, 0⟩ : State).g_stack_pointer - 2 ∧
    (safe_push ⟨fun _ => 0, 0xFFFF, 0⟩ 0xDEAD).2.g_recursion_depth =
      (⟨fun _ => 0, 0xFFFF, 0⟩ : State).g_recursion_depth ∧
    (∀ a, a ≠ (⟨fun _ => 0, 0xFFFF, 0⟩ : State).g_stack_pointer - 2 ∧
        a ≠ (⟨fun _ => 0, 0xFFFF, 0⟩ : State).g_stack_pointer - 1 →
      (safe_push ⟨fun _ => 0, 0xFFFF, 0⟩ 0xDEAD).2.mem a =
        (⟨fun _ => 0, 0xFFFF, 0⟩ : State).mem a) ∧
    (∀ a, a < STACK_BOTTOM →
      (safe_push ⟨fun _ => 0, 0xFFFF, 0⟩ 0xDEAD).2.mem a =
        (⟨fun _ => 0, 0xFFFF, 0⟩ : State).mem a) ∧
    (safe_pop (safe_push ⟨fun _ => 0, 0xFFFF, 0⟩ 0xDEAD).2 7).1 = 0 ∧
    (safe_pop (safe_push ⟨fun _ => 0, 0xFFFF, 0⟩ 0xDEAD).2 7).2.1 = 0xDEAD ∧
    (safe_pop (safe_push ⟨fun _ => 0, 0xFFFF, 0⟩ 0xDEAD).2 7).2.2.g_stack_pointer =
      (⟨fun _ => 0, 0xFFFF, 0⟩ : State).g_stack_pointer ∧
    (safe_pop (safe_push ⟨fun _ => 0, 0xFFFF, 0⟩ 0xDEAD).2 7).2.2.mem =
      (safe_push ⟨fun _ => 0, 0xFFFF, 0⟩ 0xDEAD).2.mem ∧
    safe_push ⟨fun _ => 0, 0xE002, 0⟩ 0xDEAD = (-1, ⟨fun _ => 0, 0xE002, 0⟩)) :=
  ⟨by decide, push_pop_roundtrip ⟨fun _ => 0, 0xFFFF, 0⟩ ⟨fun _ => 0, 0xE002, 0⟩ 0xDEAD 7
    (by decide) (by decide) (by decide) (by decide)⟩

/-- C16 (evaluation at the failing input): with the empty stack
(`g_stack_pointer = STACK_TOP`), `validate_memory_access(0xDFFF, 2)` returns 0 although the
second byte of the range, 0xE000, lies in the unused stack region
`[STACK_BOTTOM, g_stack_pointer)`: only the first address is compared with the stack. -/
theorem validate_checks_first_address_only :
    validate_memory_access ⟨fun _ => 0, 0xFFFF, 0⟩ 0xDFFF 2 = 0 ∧
    (0xDFFF ≤ 0xE000 ∧ 0xE000 < 0xDFFF + 2) ∧
    (STACK_BOTTOM ≤ 0xE000 ∧ 0xE000 < (⟨fun _ => 0, 0xFFFF, 0⟩ : State).g_stack_pointer) ∧
    STACK_BOTTOM ≤ (⟨fun _ => 0, 0xFFFF, 0⟩ : State).g_stack_pointer ∧
    (⟨fun _ => 0, 0xFFFF, 0⟩ : State).g_stack_pointer ≤ STACK_TOP := by
  decide

end StackProtection

namespace StackProtection

/-- The call leaves the whole state, the recursion depth included, as it found it. -/
theorem limited_recursive_function_state (n : Nat) (s : State) :
    (limited_recursive_function n s).2 = s := by
  induction n using Nat.strong_induction_on generalizing s with
  | _ n ih =>
    rw [limited_recursive_function]
    by_cases hd : s.g_recursion_depth ≥ MAX_RECURSION
    · rw [if_pos hd]
    · rw [if_neg hd]
      unfold MAX_RECURSION at hd
      have hinc : (s.g_recursion_depth + 1) % 2 ^ 16 = s.g_recursion_depth + 1 := by omega
      have hdec : (s.g_recursion_depth + 1 + 2 ^ 16 - 1) % 2 ^ 16 = s.g_recursion_depth := by
        omega
      by_cases hn : n ≤ 1
      · simp only [if_pos hn, hinc, hdec]
      · simp only [if_neg hn, ih (n - 1) (by omega), hinc, hdec]

/-- The 16-bit reduction of a product depends on a factor only through its reduction. -/
theorem toInt16_mul_toInt16 (a b : Int) : toInt16 (a * toInt16 b) = toInt16 (a * b) := by
  obtain ⟨q, hq⟩ : ∃ q : Int, toInt16 b = b - 2 ^ 16 * q :=
    ⟨(b + 2 ^ 15) / 2 ^ 16, by unfold toInt16; omega⟩
  have hmul : a * toInt16 b = a * b - 2 ^ 16 * (a * q) := by
    rw [hq]
    ring
  rw [hmul]
  unfold toInt16
  omega

/-- An integer in the range of the 16-bit `int` is its own reduction. -/
theorem toInt16_of_range (x : Int) (h1 : -2 ^ 15 ≤ x) (h2 : x < 2 ^ 15) : toInt16 x = x := by
  unfold toInt16
  omega

/-- While the depth limit is not reached the call returns the factorial reduced to the
16-bit `int`. -/
theorem limited_recursive_function_value (n : Nat) (s : State)
    (h : s.g_recursion_depth + max n 1 ≤ MAX_RECURSION) :
    (limited_recursive_function n s).1 = toInt16 (n.factorial : Int) := by
  induction n using Nat.strong_induction_on generalizing s with
  | _ n ih =>
    rw [limited_recursive_function]
    unfold MAX_RECURSION at h
    rw [if_neg (by unfold MAX_RECURSION; omega)]
    have hinc : (s.g_recursion_depth + 1) % 2 ^ 16 = s.g_recursion_depth + 1 := by omega
    by_cases hn : n ≤ 1
    · simp only [if_pos hn]
      have : n = 0 ∨ n = 1 := by omega
      rcases this with rfl | rfl <;> rfl
    · simp only [if_neg hn, hinc]
      rw [ih (n - 1) (by omega) _ (by unfold MAX_RECURSION; simp only; omega),
        toInt16_mul_toInt16]
      obtain ⟨k, rfl⟩ : ∃ k, n = k + 1 := ⟨n - 1, by omega⟩
      simp only [Nat.add_sub_cancel, Nat.factorial_succ]
      push_cast
      rfl

/-- Up to 7 the factorial fits the 16-bit `int`. -/
theorem toInt16_factorial_small (n : Nat) (h : n ≤ 7) :
    toInt16 (n.factorial : Int) = (n.factorial : Int) := by
  interval_cases n <;> decide

/-- C18 (as amended): for every `n ≤ MAX_RECURSION` (10), `limited_recursive_function(n)`
called with `g_recursion_depth = 0` returns `n!` reduced to the 16-bit `int` of the program,
which is `n!` itself for `n ≤ 7`, and leaves `g_recursion_depth = 0`; for every `m` and
every starting state the call (a total function of the model, so it terminates) leaves
`g_recursion_depth`, and the rest of the state, as before the call. -/
theorem recursion_returns_wrapped_factorial (n m : Nat) (s t : State)
    (hn : n ≤ MAX_RECURSION) (hd : s.g_recursion_depth = 0) :
    (limited_recursive_function n s).1 = toInt16 (n.factorial : Int) ∧
    (n ≤ 7 → (limited_recursive_function n s).1 = (n.factorial : Int)) ∧
    (limited_recursive_function n s).2.g_recursion_depth = 0 ∧
    (limited_recursive_function m t).2.g_recursion_depth = t.g_recursion_depth ∧
    (limited_recursive_function m t).2 = t := by
  have hv : (limited_recursive_function n s).1 = toInt16 (n.factorial : Int) := by
    apply limited_recursive_function_value
    unfold MAX_RECURSION at hn ⊢
    omega
  refine ⟨hv, ?_, ?_, ?_, limited_recursive_function_state m t⟩
  · intro h7
    rw [hv, toInt16_factorial_small n h7]
  · rw [limited_recursive_function_state n s, hd]
  · rw [limited_recursive_function_state m t]

/-- Witness of `recursion_returns_wrapped_factorial`: the call
`limited_recursive_function(5)` of `main` returns 120, and a call with `n = 11` from depth 3
restores the depth 3. -/
theorem recursion_returns_wrapped_factorial_witness :
    (5 ≤ MAX_RECURSION ∧ (⟨fun _ => 0, 0xFFFF, 0⟩ : State).g_recursion_depth = 0) ∧
    ((limited_recursive_function 5 ⟨fun _ => 0, 0xFFFF, 0⟩).1 =
      toInt16 ((5).factorial : Int) ∧
    (5 ≤ 7 → (limited_recursive_function 5 ⟨fun _ => 0, 0xFFFF, 0⟩).1 =
      ((5).factorial : Int)) ∧
    (limited_recursive_function 5 ⟨fun _ => 0, 0xFFFF, 0⟩).2.g_recursion_depth = 0 ∧
    (limited_recursive_function 11 ⟨fun _ => 0, 0xFFFF, 3⟩).2.g_recursion_depth =
      (⟨fun _ => 0, 0xFFFF, 3⟩ : State).g_recursion_depth ∧
    (limited_recursive_function 11 ⟨fun _ => 0, 0xFFFF, 3⟩).2 = ⟨fun _ => 0, 0xFFFF, 3⟩) ∧
    ((5).factorial : Int) = 120 ∧ ((0).factorial : Int) = 1 :=
  ⟨by decide, recursion_returns_wrapped_factorial 5 11 ⟨fun _ => 0, 0xFFFF, 0⟩
    ⟨fun _ => 0, 0xFFFF, 3⟩ (by decide) rfl, by decide, by decide⟩

/-- C18 (counterexample to the claim as stated): `limited_recursive_function(8)` called with
`g_recursion_depth = 0` returns `-25216`, the 16-bit `int` that `8! = 40320` wraps to, not
`8!`; likewise 9 and 10 give `-30336` and `24320`. -/
theorem factorial_wraps_at_eight :
    (8 ≤ MAX_RECURSION ∧ (⟨fun _ => 0, 0xFFFF, 0⟩ : State).g_recursion_depth = 0) ∧
    (limited_recursive_function 8 ⟨fun _ => 0, 0xFFFF, 0⟩).1 = -25216 ∧
    ((8).factorial : Int) = 40320 ∧
    (limited_recursive_function 8 ⟨fun _ => 0, 0xFFFF, 0⟩).1 ≠ ((8).factorial : Int) ∧
    (limited_recursive_function 9 ⟨fun _ => 0, 0xFFFF, 0⟩).1 = -30336 ∧
    (limited_recursive_function 10 ⟨fun _ => 0, 0xFFFF, 0⟩).1 = 24320 := by
  have h8 : (limited_recursive_function 8 ⟨fun _ => 0, 0xFFFF, 0⟩).1 = -25216 := by
    rw [limited_recursive_function_value 8 _ (by decide)]
    decide
  have h9 : (limited_recursive_function 9 ⟨fun _ => 0, 0xFFFF, 0⟩).1 = -30336 := by
    rw [limited_recursive_function_value 9 _ (by decide)]
    decide
  have h10 : (limited_recursive_function 10 ⟨fun _ => 0, 0xFFFF, 0⟩).1 = 24320 := by
    rw [limited_recursive_function_value 10 _ (by decide)]
    decide
  refine ⟨by decide, h8, by decide, ?_, h9, h10⟩
  rw [h8]
  decide

/-- C19 (evaluation at the failing input): `limited_recursive_function(11)` called with
`g_recursion_depth = 0` returns `-5376`, not `-1`: the `-1` of the innermost call, made at
depth 10 with `n = 1`, is multiplied by 2, 3, ..., 11 on the way out, and the product
`-39916800` reduced to the 16-bit `int` is `-5376`. -/
theorem depth_error_is_multiplied :
    (limited_recursive_function 11 ⟨fun _ => 0, 0xFFFF, 0⟩).1 = -5376 ∧
    (limited_recursive_function 1 ⟨fun _ => 0, 0xFFFF, 10⟩).1 = -1 ∧
    (-39916800 : Int) = -1 * 2 * 3 * 4 * 5 * 6 * 7 * 8 * 9 * 10 * 11 ∧
    toInt16 (-39916800) = -5376 ∧
    (-5376 : Int) ≠ -1 := by
  refine ⟨?_, ?_, by decide, by decide, by decide⟩
  · simp [limited_recursive_function, MAX_RECURSION, toInt16]
  · simp [limited_recursive_function, MAX_RECURSION]

end StackProtection

namespace StackProtection

/-- A validated range starts at 0x4000 or above and ends at 0x10000 or below. -/
theorem validate_range (s : State) (address size : Nat) (ha : address < 2 ^ 16)
    (hz : size < 2 ^ 16) (h : ¬ validate_memory_access s address size < 0) :
    0x4000 ≤ address ∧ address + size ≤ 0x10000 := by
  unfold validate_memory_access at h
  split_ifs at h with h1 h2 h3
  · exact absurd (by decide) h
  · exact absurd (by decide) h
  · exact absurd (by decide) h
  · omega

theorem validate_values (s : State) (address size : Nat) :
    validate_memory_access s address size = 0 ∨ validate_memory_access s address size = -1 := by
  unfold validate_memory_access
  split_ifs <;> simp

/-- The copy loop over two ranges that are disjoint or equal terminates, copies the source
bytes as they were, and changes no byte outside the destination range. -/
theorem memcpyLoop_spec (dest src size : Nat) (hd : dest + size ≤ 2 ^ 16)
    (hs : src + size ≤ 2 ^ 16) (hz : size < 2 ^ 16)
    (hdis : src + size ≤ dest ∨ dest + size ≤ src ∨ src = dest) (fuel : Nat) :
    ∀ (i : Nat) (mem : ByteMemory), i ≤ size → size - i < fuel →
      ∃ res, memcpyLoop dest src size fuel i mem = some res ∧
        (∀ j, i ≤ j → j < size → load8 res (dest + j) = load8 mem (src + j)) ∧
        (∀ a, a < dest + i ∨ dest + size ≤ a → res a = mem a) := by
  induction fuel with
  | zero => intro i mem _ hf; omega
  | succ fuel ih =>
    intro i mem hi hf
    unfold memcpyLoop
    by_cases hlt : i < size
    · rw [if_pos hlt]
      have hwrap : (i + 1) % 2 ^ 16 = i + 1 := by omega
      have hda : (dest + i) % 2 ^ 16 = dest + i := by omega
      have hsa : (src + i) % 2 ^ 16 = src + i := by omega
      rw [hwrap, hda, hsa]
      obtain ⟨res, hres, hcopy, hout⟩ :=
        ih (i + 1) (store8 mem (dest + i) (load8 mem (src + i))) (by omega) (by omega)
      refine ⟨res, hres, ?_, ?_⟩
      · intro j hij hj
        have hdj : (dest + j) % 2 ^ 16 = dest + j := by omega
        have hsj : (src + j) % 2 ^ 16 = src + j := by omega
        by_cases hji : j = i
        · subst hji
          have h1 := hout (dest + j) (by omega)
          have h2 := load8_lt mem (src + j)
          unfold load8 at h2 ⊢
          rw [hdj, h1]
          unfold store8 load8
          rw [hda, if_pos rfl, hsj]
          omega
        · rw [hcopy j (by omega) hj]
          unfold load8 store8
          rw [hsj, hda, if_neg (by omega)]
      · intro a ha
        rw [hout a (by omega)]
        unfold store8
        rw [hda, if_neg (by omega)]
    · rw [if_neg hlt]
      exact ⟨mem, rfl, fun j hij hj => by omega, fun a _ => rfl⟩

/-- C15: for every `dest`, `src`, `size`, memory and stack pointer, `safe_memcpy` returns 0
or -1; when it returns 0 the byte at `dest + i` is afterwards the byte that was at `src + i`
before the call, for every `i < size`, and every byte outside `[dest, dest + size)` is
unchanged; when it returns -1 nothing has changed.  The global variables are never
changed. -/
theorem safe_memcpy_result (s : State) (dest src size : Nat) (hd : dest < 2 ^ 16)
    (hs : src < 2 ^ 16) (hz : size < 2 ^ 16) :
    ∃ res, safe_memcpy s dest src size = some res ∧
      (res.1 = 0 ∨ res.1 = -1) ∧
      (res.1 = 0 →
        (∀ i, i < size → load8 res.2.mem (dest + i) = load8 s.mem (src + i)) ∧
        (∀ a, a < dest ∨ dest + size ≤ a → res.2.mem a = s.mem a)) ∧
      (res.1 = -1 → res.2 = s) ∧
      res.2.g_stack_pointer = s.g_stack_pointer ∧
      res.2.g_recursion_depth = s.g_recursion_depth := by
  unfold safe_memcpy
  by_cases h1 : validate_memory_access s src size < 0
  · rw [if_pos h1]
    exact ⟨_, rfl, Or.inr rfl, fun h => by simp at h, fun _ => rfl, rfl, rfl⟩
  · rw [if_neg h1]
    by_cases h2 : validate_memory_access s dest size < 0
    · rw [if_pos h2]
      exact ⟨_, rfl, Or.inr rfl, fun h => by simp at h, fun _ => rfl, rfl, rfl⟩
    · rw [if_neg h2]
      by_cases h3 : (src < dest ∧ (src + size) % 2 ^ 16 > dest) ∨
          (dest < src ∧ (dest + size) % 2 ^ 16 > src)
      · rw [if_pos h3]
        exact ⟨_, rfl, Or.inr rfl, fun h => by simp at h, fun _ => rfl, rfl, rfl⟩
      · rw [if_neg h3]
        have hsr := validate_range s src size hs hz h1
        have hdr := validate_range s dest size hd hz h2
        have hdis : src + size ≤ dest ∨ dest + size ≤ src ∨ src = dest := by omega
        obtain ⟨mem, hmem, hcopy, hout⟩ :=
          memcpyLoop_spec dest src size (by omega) (by omega) hz hdis (2 ^ 16) 0 s.mem
            (by omega) (by omega)
        rw [hmem]
        refine ⟨_, rfl, Or.inl rfl, fun _ => ⟨?_, ?_⟩, fun h => by simp at h, rfl, rfl⟩
        · intro i hi
          exact hcopy i (by omega) hi
        · intro a ha
          exact hout a (by omega)

/-- Witness of `safe_memcpy_result`: the call `safe_memcpy(0x5000, 0x4000, 100)` of `main`,
which returns 0. -/
theorem safe_memcpy_result_witness :
    ((0x5000 : Nat) < 2 ^ 16 ∧ (0x4000 : Nat) < 2 ^ 16 ∧ (100 : Nat) < 2 ^ 16) ∧
    (∃ res, safe_memcpy ⟨fun a => a % 7, 0xFFFF, 0⟩ 0x5000 0x4000 100 = some res ∧
      (res.1 = 0 ∨ res.1 = -1) ∧
      (res.1 = 0 →
        (∀ i, i < 100 → load8 res.2.mem (0x5000 + i) =
          load8 (⟨fun a => a % 7, 0xFFFF, 0⟩ : State).mem (0x4000 + i)) ∧
        (∀ a, a < 0x5000 ∨ 0x5000 + 100 ≤ a →
          res.2.mem a = (⟨fun a => a % 7, 0xFFFF, 0⟩ : State).mem a)) ∧
      (res.1 = -1 → res.2 = ⟨fun a => a % 7, 0xFFFF, 0⟩) ∧
      res.2.g_stack_pointer = (⟨fun a => a % 7, 0xFFFF, 0⟩ : State).g_stack_pointer ∧
      res.2.g_recursion_depth = (⟨fun a => a % 7, 0xFFFF, 0⟩ : State).g_recursion_depth) ∧
    (safe_memcpy ⟨fun a => a % 7, 0xFFFF, 0⟩ 0x5000 0x4000 100).map (fun res => res.1) =
      some 0 :=
  ⟨by decide, safe_memcpy_result ⟨fun a => a % 7, 0xFFFF, 0⟩ 0x5000 0x4000 100 (by decide)
    (by decide) (by decide), by decide⟩

end StackProtection

namespace StackProtection

/-- A 16-bit read is not affected by a 16-bit write two or more bytes away. -/
theorem load16_store16_other (mem : ByteMemory) (a b v : Nat) (ha : a + 1 < 2 ^ 16)
    (hb : b + 1 < 2 ^ 16) (hab : a + 2 ≤ b ∨ b + 2 ≤ a) :
    load16 (store16 mem a v) b = load16 mem b := by
  have h1 := store16_other mem a v b ha (by omega)
  have h2 := store16_other mem a v (b + 1) ha (by omega)
  have hb1 : b % 2 ^ 16 = b := by omega
  have hb2 : (b + 1) % 2 ^ 16 = b + 1 := by omega
  simp only [load16, load8, hb1, hb2, h1, h2]

theorem safe_push_ok (s : State) (v : Nat) (h1 : STACK_BOTTOM + 2 < s.g_stack_pointer)
    (h2 : s.g_stack_pointer ≤ STACK_TOP) :
    safe_push s v =
      (0, { s with g_stack_pointer := s.g_stack_pointer - 2,
                   mem := store16 s.mem (s.g_stack_pointer - 2) v }) := by
  unfold STACK_BOTTOM at h1
  unfold STACK_TOP at h2
  have hsp : (s.g_stack_pointer + 2 ^ 16 - 2) % 2 ^ 16 = s.g_stack_pointer - 2 := by omega
  unfold safe_push STACK_BOTTOM
  rw [if_neg (by omega)]
  simp only [hsp]

theorem safe_pop_ok (s : State) (x : Nat) (h : s.g_stack_pointer + 2 ≤ STACK_TOP) :
    safe_pop s x =
      (0, load16 s.mem s.g_stack_pointer,
        { s with g_stack_pointer := s.g_stack_pointer + 2 }) := by
  unfold STACK_TOP at h
  have hsp : (s.g_stack_pointer + 2) % 2 ^ 16 = s.g_stack_pointer + 2 := by omega
  unfold safe_pop STACK_TOP
  rw [if_neg (by omega)]
  simp only [hsp]

/-- With room for three pushes, `protected_function` returns 0, restores the stack pointer
and leaves every byte at or above the entry stack pointer unchanged. -/
theorem protected_function_balanced (s : State) (param1 param2 canary : Nat)
    (h1 : STACK_BOTTOM + 6 < s.g_stack_pointer) (h2 : s.g_stack_pointer ≤ STACK_TOP) :
    (protected_function s param1 param2 canary).1 = 0 ∧
    (protected_function s param1 param2 canary).2.g_stack_pointer = s.g_stack_pointer ∧
    (∀ a, s.g_stack_pointer ≤ a →
      (protected_function s param1 param2 canary).2.mem a = s.mem a) := by
  obtain ⟨mem, sp, depth⟩ := s
  simp only at h1 h2 ⊢
  have hb : STACK_BOTTOM = 0xE000 := rfl
  have ht : STACK_TOP = 0xFFFF := rfl
  have hc : STACK_CANARY < 2 ^ 16 := by decide
  have e4 : sp - 2 - 2 = sp - 4 := by omega
  have e6 : sp - 4 - 2 = sp - 6 := by omega
  have b4 : sp - 6 + 2 = sp - 4 := by omega
  have b2 : sp - 4 + 2 = sp - 2 := by omega
  have b0 : sp - 2 + 2 = sp := by omega
  have p1 : safe_push ⟨mem, sp, depth⟩ STACK_CANARY =
      (0, ⟨store16 mem (sp - 2) STACK_CANARY, sp - 2, depth⟩) := by
    rw [safe_push_ok _ _ (by simp only; omega) (by simp only; omega)]
  have p2 : ∀ m v, safe_push ⟨m, sp - 2, depth⟩ v = (0, ⟨store16 m (sp - 4) v, sp - 4, depth⟩) := by
    intro m v
    rw [safe_push_ok _ _ (by simp only; omega) (by simp only; omega)]
    simp only [e4]
  have p3 : ∀ m v, safe_push ⟨m, sp - 4, depth⟩ v = (0, ⟨store16 m (sp - 6) v, sp - 6, depth⟩) := by
    intro m v
    rw [safe_push_ok _ _ (by simp only; omega) (by simp only; omega)]
    simp only [e6]
  have q2 : ∀ m x, safe_pop ⟨m, sp - 6, depth⟩ x = (0, load16 m (sp - 6), ⟨m, sp - 4, depth⟩) := by
    intro m x
    rw [safe_pop_ok _ _ (by simp only; omega)]
    simp only [b4]
  have q1 : ∀ m x, safe_pop ⟨m, sp - 4, depth⟩ x = (0, load16 m (sp - 4), ⟨m, sp - 2, depth⟩) := by
    intro m x
    rw [safe_pop_ok _ _ (by simp only; omega)]
    simp only [b2]
  have qc : ∀ m x, safe_pop ⟨m, sp - 2, depth⟩ x = (0, load16 m (sp - 2), ⟨m, sp, depth⟩) := by
    intro m x
    rw [safe_pop_ok _ _ (by simp only; omega)]
    simp only [b0]
  have hcan : load16
      (store16 (store16 (store16 mem (sp - 2) STACK_CANARY)
        (sp - 4) ((param1 + param2) % 2 ^ 16))
        (sp - 6) (param1 * 2 % 2 ^ 16)) (sp - 2) =
      STACK_CANARY := by
    rw [load16_store16_other _ _ _ _ (by omega) (by omega) (by omega),
      load16_store16_other _ _ _ _ (by omega) (by omega) (by omega),
      load16_store16 _ _ _ (by omega) hc]
  unfold protected_function
  simp only [p1, p2, p3, q2, q1, qc, hcan, ne_eq, not_true_eq_false, if_false, true_and]
  intro a ha
  rw [store16_other _ _ _ _ (by omega) (by omega),
    store16_other _ _ _ _ (by omega) (by omega),
    store16_other _ _ _ _ (by omega) (by omega)]

/-- C20 (evaluation at the failing input): entered with `g_stack_pointer = 0xE002`, inside
`(STACK_BOTTOM, STACK_TOP]`, the three `safe_push` calls of `protected_function(10, 20)` are
refused and their results ignored, the first `safe_pop` reads the two bytes at the entry
stack pointer, and the function returns with `g_stack_pointer = 0xE008`, six above its
value on entry.  Entered with `g_stack_pointer = STACK_TOP` it returns 0 with the stack
pointer restored. -/
theorem protected_function_unbalanced :
    (STACK_BOTTOM < 0xE002 ∧ 0xE002 ≤ STACK_TOP) ∧
    (safe_push ⟨fun a => a % 251, 0xE002, 0⟩ STACK_CANARY).1 = -1 ∧
    (safe_pop ⟨fun a => a % 251, 0xE002, 0⟩ 20).1 = 0 ∧
    (safe_pop ⟨fun a => a % 251, 0xE002, 0⟩ 20).2.1 = load16 (fun a => a % 251) 0xE002 ∧
    (protected_function ⟨fun a => a % 251, 0xE002, 0⟩ 10 20 0).2.g_stack_pointer = 0xE008 ∧
    (protected_function ⟨fun a => a % 251, 0xE002, 0⟩ 10 20 0).1 = -1 ∧
    (protected_function ⟨fun a => a % 251, 0xFFFF, 0⟩ 10 20 0).1 = 0 ∧
    (protected_function ⟨fun a => a % 251, 0xFFFF, 0⟩ 10 20 0).2.g_stack_pointer = 0xFFFF := by
  decide

end StackProtection

/-! ### The program copy of example.c -/

namespace Example

/-- For a `memory_size` below the largest 8-bit value the copy loop is left after one write
per address from `memory_address` to `memory_size`. -/
theorem exampleCopyLoop_eq (m : Nat → Nat) (memory_size : Nat) (hs : memory_size < 2 ^ 8 - 1)
    (fuel memory_address : Nat) (ha : memory_address ≤ memory_size + 1)
    (hf : memory_size + 1 - memory_address < fuel) :
    copyLoop m memory_size fuel memory_address =
      some ((List.range' memory_address (memory_size + 1 - memory_address)).map
        (fun a => (a, read_my_memory m a))) := by
  induction fuel generalizing memory_address with
  | zero => omega
  | succ fuel ih =>
    unfold copyLoop
    by_cases hle : memory_address ≤ memory_size
    · rw [if_pos hle]
      have hwrap : (memory_address + 1) % 2 ^ 8 = memory_address + 1 := by omega
      rw [hwrap, ih (memory_address + 1) (by omega) (by omega)]
      have hlen : memory_size + 1 - memory_address =
          (memory_size + 1 - (memory_address + 1)) + 1 := by omega
      rw [hlen, List.range'_succ]
      simp
    · rw [if_neg hle]
      have hz : memory_size + 1 - memory_address = 0 := by omega
      rw [hz]
      simp

/-- For a `memory_size` below the largest 8-bit value the writes end with the release of
the trap. -/
theorem childWrites_released (m : Nat → Nat) (memory_size : Nat)
    (hs : memory_size < 2 ^ 8 - 1) :
    ∃ cp, childWrites m memory_size (2 ^ 8) =
      some ([(0, ASSEMBLER_JMP)] ++ cp ++ [(0, ASSEMBLER_NOP0)]) := by
  unfold childWrites
  by_cases h2 : 2 ≤ memory_size + 1
  · rw [exampleCopyLoop_eq m memory_size hs (2 ^ 8) 2 h2 (by omega)]
    exact ⟨_, rfl⟩
  · refine ⟨[], ?_⟩
    have h3 : ¬ 2 ≤ memory_size := by omega
    have hp : (2 : Nat) ^ 8 = 255 + 1 := by norm_num
    rw [hp]
    unfold copyLoop
    rw [if_neg h3]
    rfl

/-- With `memory_size` the largest 8-bit value the condition `memory_address <= memory_size`
holds for every value of the counter, so the loop is not left, whatever the fuel. -/
theorem copyLoop_never_left (m : Nat → Nat) (fuel memory_address : Nat)
    (ha : memory_address < 2 ^ 8) : copyLoop m 255 fuel memory_address = none := by
  induction fuel generalizing memory_address with
  | zero => rfl
  | succ fuel ih =>
    unfold copyLoop
    rw [if_pos (by omega), ih ((memory_address + 1) % 2 ^ 8) (by omega)]
    rfl

/-- C21 (evaluation at the failing input): when `search_template(0xCC)` returns 255, the
all-ones value of the 8-bit variables, the copy loop is not left for any amount of fuel
(after `memory_address = 255` the counter wraps to 0 and the condition still holds), and the
write that releases the trap at child address 0 is never reached. -/
theorem copy_loop_diverges_on_sentinel (m : Nat → Nat) (fuel : Nat) :
    (255 + 1) % 2 ^ 8 = 0 ∧ 2 ^ 8 - 1 = 255 ∧
    copyLoop m 255 fuel 2 = none ∧ childWrites m 255 fuel = none := by
  have h := copyLoop_never_left m fuel 2 (by norm_num)
  refine ⟨by norm_num, by norm_num, h, ?_⟩
  unfold childWrites
  rw [h]
  rfl

/-- The copy for `memory_size = 4`: addresses 2, 3 and 4 are copied between the trap and its
release. -/
theorem childWrites_small :
    childWrites (fun a => a + 10) 4 (2 ^ 8) =
      some [(0, 0x60), (2, 12), (3, 13), (4, 14), (0, 0x00)] := by
  decide

end Example
